import Mathlib

/-!
Trace-context propagation of the OpenTracing adapter (package `opentracing`)

A shallow embedding of `src/opentracing/propagation.go`: the text codec
(`textMapPropagator`) and the binary codec (`binaryPropagator`) that move a span
context through a carrier.

Conventions of the embedding

* machine integers (`uint64`, `uint32`, bytes) are `Nat`; where Go truncates, the
  embedding writes the `%` explicitly;
* a Go `map[string]string` is an association list whose order stands for the
  iteration order the runtime happens to choose;
* a pointer that may be `nil` (`*bool`, `*model.ID`) is an `Option`;
* carriers are stateful: every operation on them passes the carrier state along;
* what the code imports from packages that are not part of the sources at hand
  (the record serializer, the flag masks, the B3 header names, Unicode lowering)
  is a parameter of the definitions that use it.
-/

set_option autoImplicit false

/-- A Go `string`; the embedding keeps to strings that are valid Unicode. -/
abbrev GoString : Type := String

/-! ## Errors -/

/-- Go `error` values the propagators return: the five OpenTracing errors, the two
end-of-stream errors of package `io`, and any other error of a carrier or of the
serializer, told apart by a code. -/
inductive GoError where
  | ErrInvalidSpanContext
  | ErrInvalidCarrier
  | ErrSpanContextCorrupted
  | ErrSpanContextNotFound
  | ErrUnsupportedFormat
  | EOF
  | ErrUnexpectedEOF
  | other (code : Nat)
  deriving DecidableEq, Repr

deriving instance DecidableEq for Except

/-! ## Data model -/

/-- Modelled from the spec: `model.TraceID` (its declaration is not among the sources),
a 128-bit identifier kept as two 64-bit halves. -/
structure model.TraceID where
  High : Nat
  Low : Nat
  deriving DecidableEq, Repr

/-- Modelled from the spec: `TraceID.Empty`, true iff both halves are zero. -/
def model.TraceID.Empty (t : model.TraceID) : Bool :=
  t.Low == 0 && t.High == 0

/-- Modelled from the spec: `model.SpanContext` (its declaration is not among the
sources), with the five fields the propagators read and write. `ParentID` and `Sampled`
are pointers in Go: `none` is the nil pointer (no parent, no sampling decision). -/
structure model.SpanContext where
  TraceID : model.TraceID
  ID : Nat
  ParentID : Option Nat
  Debug : Bool
  Sampled : Option Bool
  deriving DecidableEq, Repr

/-- The adapter's span context (`span_context.go`): the model context plus baggage. -/
structure spanContextImpl where
  SpanContext : model.SpanContext
  baggage : List (String × String)
  deriving DecidableEq, Repr

/-- What an `ot.SpanContext` interface value can hold: a `spanContextImpl` value, a
pointer to one, or something else. Only the first passes the type assertion
`spanContext.(spanContextImpl)`. -/
inductive ot.SpanContext where
  | value (sc : spanContextImpl)
  | pointer (sc : spanContextImpl)
  | foreign
  deriving DecidableEq, Repr

/-- An opaque carrier (`interface{}`) seen through one type assertion: either it
implements the asserted interface and has a state of type `σ`, or it does not. -/
inductive Carrier (σ : Type) where
  | supported (c : σ)
  | unsupported
  deriving DecidableEq, Repr

/-! ## Binary codec: the parts that are imported -/

/-- Modelled from the spec: the serialized record `wire.TracerState` (its declaration
is not among the sources), with the fields the binary propagator uses. -/
structure wire.TracerState where
  TraceId : Nat
  SpanId : Nat
  Sampled : Bool
  BaggageItems : List (String × String)
  TraceIdHigh : Nat
  ParentSpanId : Nat
  Flags : Nat
  deriving DecidableEq, Repr

/-- The zero value `wire.TracerState{}`. -/
def wire.TracerState.zero : wire.TracerState :=
  { TraceId := 0, SpanId := 0, Sampled := false, BaggageItems := [],
    TraceIdHigh := 0, ParentSpanId := 0, Flags := 0 }

/-- The record serializer (`proto.Marshal` and `proto.Unmarshal` on a
`wire.TracerState`), a parameter of the binary codec. -/
structure wire.Codec where
  Marshal : wire.TracerState → Except GoError (List Nat)
  Unmarshal : List Nat → Except GoError wire.TracerState

/-- The masks of package `flag`, a parameter of the binary codec. Each mask is one
bit; the structure holds the positions. -/
structure flag.Masks where
  debugPos : Nat
  samplingSetPos : Nat
  sampledPos : Nat
  isRootPos : Nat
  deriving DecidableEq, Repr

/-- Mask `flag.Debug`. -/
def flag.Masks.Debug (F : flag.Masks) : Nat := 1 <<< F.debugPos

/-- Mask `flag.SamplingSet`. -/
def flag.Masks.SamplingSet (F : flag.Masks) : Nat := 1 <<< F.samplingSetPos

/-- Mask `flag.Sampled`. -/
def flag.Masks.Sampled (F : flag.Masks) : Nat := 1 <<< F.sampledPos

/-- Mask `flag.IsRoot`. -/
def flag.Masks.IsRoot (F : flag.Masks) : Nat := 1 <<< F.isRootPos

/-- The four masks are four different bits. -/
def flag.Masks.Distinct (F : flag.Masks) : Prop :=
  F.debugPos ≠ F.samplingSetPos ∧ F.debugPos ≠ F.sampledPos ∧ F.debugPos ≠ F.isRootPos ∧
  F.samplingSetPos ≠ F.sampledPos ∧ F.samplingSetPos ≠ F.isRootPos ∧
  F.sampledPos ≠ F.isRootPos

instance (F : flag.Masks) : Decidable F.Distinct := by
  unfold flag.Masks.Distinct; infer_instance

/-- One numbering of the masks, used to run the codec on concrete inputs: Debug,
SamplingSet, Sampled, IsRoot are the bits 0, 1, 2, 3. -/
def flag.standard : flag.Masks :=
  { debugPos := 0, samplingSetPos := 1, sampledPos := 2, isRootPos := 3 }

/-- The test `flags&mask == mask` of the source. -/
def flag.isSet (flags mask : Nat) : Bool := flags &&& mask == mask

/-! ## Byte streams -/

/-- Result of one `Read(p)` call: the bytes stored at the front of `p` (their number
is the count `n` the call returns), the error, and the state of the reader after it. -/
structure io.ReadResult (σ : Type) where
  data : List Nat
  err : Option GoError
  next : σ

/-- An `io.Reader` with states in `σ`: `Read s len` is the call `Read(p)` with
`len(p) = len` in state `s`. -/
structure io.Reader (σ : Type) where
  Read : σ → Nat → io.ReadResult σ

/-- An `io.Writer` with states in `σ`: `Write s p` gives the error of the call and the
state after it (the codec drops the count a write returns). -/
structure io.Writer (σ : Type) where
  Write : σ → List Nat → Option GoError × σ

/-- Buffer `p` of length `len` after a read stored `data` in it: at most `len` bytes are
stored, the rest of the fresh buffer is still zero. -/
def io.fill (len : Nat) (data : List Nat) : List Nat :=
  data.take len ++ List.replicate (len - data.length) 0

/-- Loop of `io.ReadAtLeast(r, buf, min)` with `min = len(buf) = size`:
`for n < min && err == nil { nn, err = r.Read(buf[n:]); n += nn }`, then the error is
cleared when `n >= min` and an `EOF` after a partial read becomes `ErrUnexpectedEOF`.
`acc` holds the `n` bytes read so far. The loop has no bound of its own, so the
embedding takes fuel: `none` means the reader kept returning `0, nil` until the fuel
was used up. -/
def io.ReadFull.loop {σ : Type} (r : io.Reader σ) (size : Nat) :
    Nat → σ → List Nat → Option GoError → Option (List Nat × Option GoError × σ)
  | fuel, s, acc, err =>
    if acc.length < size ∧ err = none then
      match fuel with
      | 0 => none
      | fuel + 1 =>
        let res := r.Read s (size - acc.length)
        io.ReadFull.loop r size fuel res.next
          (acc ++ res.data.take (size - acc.length)) res.err
    else if size ≤ acc.length then some (acc, none, s)
    else if 0 < acc.length ∧ err = some GoError.EOF then
      some (acc, some GoError.ErrUnexpectedEOF, s)
    else some (acc, err, s)

/-- Function `io.ReadFull(r, buf)` with `len(buf) = size`. -/
def io.ReadFull {σ : Type} (r : io.Reader σ) (fuel : Nat) (s : σ) (size : Nat) :
    Option (List Nat × Option GoError × σ) :=
  io.ReadFull.loop r size fuel s [] none

/-- Function `binary.BigEndian.PutUint32`. -/
def binary.BigEndian.PutUint32 (v : Nat) : List Nat :=
  [v / 2 ^ 24 % 256, v / 2 ^ 16 % 256, v / 2 ^ 8 % 256, v % 256]

/-- Function `binary.BigEndian.Uint32` on a four-byte slice. -/
def binary.BigEndian.Uint32 : List Nat → Nat
  | [a, b, c, d] => a % 256 * 2 ^ 24 + b % 256 * 2 ^ 16 + c % 256 * 2 ^ 8 + d % 256
  | _ => 0

/-- Call `binary.Write(w, binary.BigEndian, &length)` for a `uint32`: one write of the
four bytes, whose error is returned. -/
def binary.Write {σ : Type} (w : io.Writer σ) (s : σ) (length : Nat) : Option GoError × σ :=
  w.Write s (binary.BigEndian.PutUint32 length)

/-- Call `binary.Read(r, binary.BigEndian, &length)` for a `uint32`: `io.ReadFull` of
four bytes, then the big-endian value. -/
def binary.Read {σ : Type} (r : io.Reader σ) (fuel : Nat) (s : σ) :
    Option (Except GoError Nat × σ) :=
  match io.ReadFull r fuel s 4 with
  | none => none
  | some (_, some e, s1) => some (Except.error e, s1)
  | some (bs, none, s1) => some (Except.ok (binary.BigEndian.Uint32 bs), s1)

/-! ## Binary codec -/

/-- Lines 130-152 of `binaryPropagator.Inject`: the record built from the context. -/
def binaryPropagator.Inject.state (F : flag.Masks) (sc : spanContextImpl) :
    wire.TracerState :=
  let sampled : Bool := sc.SpanContext.Sampled == some true
  -- encode the debug bit
  let flags := F.Debug
  let parentSpanId := match sc.SpanContext.ParentID with
    | some p => p
    | none => 0
  let flags := match sc.SpanContext.ParentID with
    | some _ => flags
    | none => flags ||| F.IsRoot
  -- we explicitly inform our sampling state downstream
  let flags := flags ||| F.SamplingSet
  let flags := if sc.SpanContext.Sampled == some true then flags ||| F.Sampled else flags
  { TraceId := sc.SpanContext.TraceID.Low
    TraceIdHigh := sc.SpanContext.TraceID.High
    SpanId := sc.SpanContext.ID
    Sampled := sampled
    BaggageItems := sc.baggage
    ParentSpanId := parentSpanId
    Flags := flags }

/-- Method `binaryPropagator.Inject`: the error it returns (`none` is `nil`) and the
carrier after the call. -/
def binaryPropagator.Inject {σ : Type} (F : flag.Masks) (W : wire.Codec) (w : io.Writer σ)
    (spanContext : ot.SpanContext) (opaqueCarrier : Carrier σ) :
    Option GoError × Carrier σ :=
  match spanContext with
  | ot.SpanContext.value sc =>
    match opaqueCarrier with
    | Carrier.supported carrier =>
      let state := binaryPropagator.Inject.state F sc
      match W.Marshal state with
      | Except.error err => (some err, Carrier.supported carrier)
      | Except.ok b =>
        -- Write the length of the marshalled binary to the writer.
        let length := b.length % 2 ^ 32
        match binary.Write w carrier length with
        | (some err, carrier1) => (some err, Carrier.supported carrier1)
        | (none, carrier1) =>
          let (err, carrier2) := w.Write carrier1 b
          (err, Carrier.supported carrier2)
    | Carrier.unsupported => (some GoError.ErrInvalidCarrier, Carrier.unsupported)
  | _ => (some GoError.ErrInvalidSpanContext, opaqueCarrier)

/-- Lines 198-217 of `binaryPropagator.Extract`: the context built from the
deserialized record. -/
def binaryPropagator.Extract.context (F : flag.Masks) (ctx : wire.TracerState) :
    spanContextImpl :=
  let flags := ctx.Flags
  let sampled := if flag.isSet flags F.Sampled then true else ctx.Sampled
  let parentID := ctx.ParentSpanId
  { SpanContext :=
      { TraceID := { Low := ctx.TraceId, High := ctx.TraceIdHigh }
        ID := ctx.SpanId
        Sampled := some sampled
        ParentID := some parentID
        Debug := false }
    baggage := ctx.BaggageItems }

/-- Lines 193-217 of `binaryPropagator.Extract`: deserialize the buffer and build the
context. -/
def binaryPropagator.Extract.decode (F : flag.Masks) (W : wire.Codec) (buf : List Nat) :
    Except GoError spanContextImpl :=
  match W.Unmarshal buf with
  | Except.error _ => Except.error GoError.ErrSpanContextCorrupted
  | Except.ok ctx => Except.ok (binaryPropagator.Extract.context F ctx)

/-- Method `binaryPropagator.Extract`. The result is `none` when the length read does
not end within the fuel; otherwise it is the pair the method returns, an error or a
context. -/
def binaryPropagator.Extract {σ : Type} (F : flag.Masks) (W : wire.Codec) (r : io.Reader σ)
    (fuel : Nat) (opaqueCarrier : Carrier σ) : Option (Except GoError spanContextImpl) :=
  match opaqueCarrier with
  | Carrier.unsupported => some (Except.error GoError.ErrInvalidCarrier)
  | Carrier.supported carrier =>
    match binary.Read r fuel carrier with
    | none => none
    | some (Except.error _, _) => some (Except.error GoError.ErrSpanContextCorrupted)
    | some (Except.ok length, carrier1) =>
      let res := r.Read carrier1 length
      let n := min res.data.length length
      match res.err with
      | some _ =>
        if n > 0 then some (Except.error GoError.ErrSpanContextCorrupted)
        else some (Except.error GoError.ErrSpanContextNotFound)
      | none => some (binaryPropagator.Extract.decode F W (io.fill length res.data))

/-! ## Go maps -/

/-- Assignment `m[k] = v` on a Go map: the value of an existing key is replaced, a new
key is added. -/
def mapSet : List (String × String) → String → String → List (String × String)
  | [], k, v => [(k, v)]
  | (k1, v1) :: m, k, v => if k1 = k then (k, v) :: m else (k1, v1) :: mapSet m k v

/-- Lookup `m[k]` on a Go map, `none` when the key is absent. -/
def mapGet (m : List (String × String)) (k : String) : Option String :=
  (m.find? (fun e => e.1 = k)).map (fun e => e.2)

/-! ## Concrete carriers and a concrete serializer

The theorems below hold for every reader, writer and serializer. To run the codec on
concrete inputs the development also fixes one carrier, Go's `bytes.Buffer`, and one
serializer, the protocol-buffers encoding of the record. -/

/-- Method `Read` of a `bytes.Buffer` whose unread bytes are `s`: an empty buffer
returns `0, io.EOF` (or `0, nil` when `len(p) = 0`), otherwise as many bytes as fit are
copied and the error is nil. -/
def bytes.Buffer.Read (s : List Nat) (len : Nat) : io.ReadResult (List Nat) :=
  if s = [] then
    if len = 0 then { data := [], err := none, next := s }
    else { data := [], err := some GoError.EOF, next := s }
  else { data := s.take len, err := none, next := s.drop len }

/-- Method `Write` of a `bytes.Buffer`: the bytes are appended, the error is nil. -/
def bytes.Buffer.Write (s : List Nat) (p : List Nat) : Option GoError × List Nat :=
  (none, s ++ p)

/-- A `bytes.Buffer` as an `io.Reader`. -/
def bytes.Buffer.reader : io.Reader (List Nat) := { Read := bytes.Buffer.Read }

/-- A `bytes.Buffer` as an `io.Writer`. -/
def bytes.Buffer.writer : io.Writer (List Nat) := { Write := bytes.Buffer.Write }

/-- UTF-8 bytes of one code point. -/
def utf8.encodeRune (c : Char) : List Nat :=
  let n := c.toNat
  if n < 128 then [n]
  else if n < 2048 then [192 + n / 64, 128 + n % 64]
  else if n < 65536 then [224 + n / 4096, 128 + n / 64 % 64, 128 + n % 64]
  else [240 + n / 262144, 128 + n / 4096 % 64, 128 + n / 64 % 64, 128 + n % 64]

/-- UTF-8 bytes of a string. -/
def utf8.encode (s : String) : List Nat :=
  s.data.flatMap utf8.encodeRune

/-- Number of bytes of the UTF-8 sequence that starts with byte `b`. -/
def utf8.width (b : Nat) : Nat :=
  if b < 128 then 1 else if b < 224 then 2 else if b < 240 then 3 else 4

/-- Code point of a UTF-8 sequence of one to four bytes. -/
def utf8.value : List Nat → Nat
  | [a] => a
  | [a, b] => (a - 192) * 64 + (b - 128)
  | [a, b, c] => (a - 224) * 4096 + (b - 128) * 64 + (c - 128)
  | [a, b, c, d] => (a - 240) * 262144 + (b - 128) * 4096 + (c - 128) * 64 + (d - 128)
  | _ => 0

/-- Decoding of UTF-8 bytes: a sequence is accepted when it is the encoding of the code
point it stands for. -/
def utf8.decode : Nat → List Nat → Option (List Char)
  | 0, _ => none
  | _ + 1, [] => some []
  | fuel + 1, b :: bs =>
    let chunk := (b :: bs).take (utf8.width b)
    let c := Char.ofNat (utf8.value chunk)
    if utf8.encodeRune c = chunk then
      (utf8.decode fuel ((b :: bs).drop (utf8.width b))).map (fun cs => c :: cs)
    else none

/-- A Go string from its UTF-8 bytes, `none` when they are not valid UTF-8. -/
def utf8.toString (bs : List Nat) : Option String :=
  (utf8.decode (bs.length + 1) bs).map String.mk

/-- Protocol-buffers varint of a `uint64`. -/
def proto.uvarint : Nat → Nat → List Nat
  | 0, _ => []
  | fuel + 1, v => if v < 128 then [v] else (v % 128 + 128) :: proto.uvarint fuel (v / 128)

/-- Protocol-buffers varint: ten bytes are enough for 64 bits. -/
def proto.EncodeVarint (v : Nat) : List Nat := proto.uvarint 10 (v % 2 ^ 64)

/-- Reads one varint: its value and the bytes after it. -/
def proto.DecodeVarint : List Nat → Option (Nat × List Nat)
  | [] => none
  | b :: rest =>
    if b % 256 < 128 then some (b % 256, rest)
    else match proto.DecodeVarint rest with
      | none => none
      | some (v, rest1) => some ((b % 128 + 128 * v) % 2 ^ 64, rest1)

/-- Protocol-buffers fixed64: eight bytes, little-endian. -/
def proto.EncodeFixed64 (v : Nat) : List Nat :=
  (List.range 8).map (fun i => v / 256 ^ i % 256)

/-- Value of a little-endian byte sequence. -/
def proto.littleEndian : List Nat → Nat
  | [] => 0
  | b :: rest => b % 256 + 256 * proto.littleEndian rest

/-- Reads `n` bytes: the bytes and what follows them, `none` when fewer are left. -/
def proto.takeBytes (n : Nat) (bs : List Nat) : Option (List Nat × List Nat) :=
  if n ≤ bs.length then some (bs.take n, bs.drop n) else none

/-- Reads one length-delimited value. -/
def proto.DecodeRawBytes (bs : List Nat) : Option (List Nat × List Nat) :=
  match proto.DecodeVarint bs with
  | none => none
  | some (len, rest) => proto.takeBytes len rest

/-- Skips the value of a field that the message does not know, by its wire type. -/
def proto.skipField (wireType : Nat) (bs : List Nat) : Option (List Nat) :=
  match wireType with
  | 0 => (proto.DecodeVarint bs).map (fun r => r.2)
  | 1 => (proto.takeBytes 8 bs).map (fun r => r.2)
  | 2 => (proto.DecodeRawBytes bs).map (fun r => r.2)
  | 5 => (proto.takeBytes 4 bs).map (fun r => r.2)
  | _ => none

/-- One length-delimited string field: tag, length, UTF-8 bytes. -/
def proto.encodeStringField (tag : Nat) (s : String) : List Nat :=
  tag :: (proto.EncodeVarint (utf8.encode s).length ++ utf8.encode s)

/-- One entry of the baggage map: field 4, holding key (field 1) and value (field 2). -/
def proto.encodeEntry (e : String × String) : List Nat :=
  let body := proto.encodeStringField 10 e.1 ++ proto.encodeStringField 18 e.2
  34 :: (proto.EncodeVarint body.length ++ body)

/-- One fixed64 field, left out when zero (proto3). -/
def proto.encodeFixed64Field (tag : List Nat) (v : Nat) : List Nat :=
  if v % 2 ^ 64 = 0 then [] else tag ++ proto.EncodeFixed64 (v % 2 ^ 64)

/-- Encoding of a `wire.TracerState` in field-number order: `trace_id` = 1,
`span_id` = 2, `sampled` = 3, `baggage_items` = 4, `trace_id_high` = 20,
`parent_span_id` = 21, `flags` = 22. -/
def proto.Marshal (st : wire.TracerState) : Except GoError (List Nat) :=
  Except.ok
    (proto.encodeFixed64Field [9] st.TraceId ++
     proto.encodeFixed64Field [17] st.SpanId ++
     (if st.Sampled then [24, 1] else []) ++
     st.BaggageItems.flatMap proto.encodeEntry ++
     proto.encodeFixed64Field [161, 1] st.TraceIdHigh ++
     proto.encodeFixed64Field [169, 1] st.ParentSpanId ++
     proto.encodeFixed64Field [177, 1] st.Flags)

/-- Decoding of one map entry: the fields 1 and 2 are key and value, other fields are
skipped. -/
def proto.decodeEntry : Nat → List Nat → String × String → Option (String × String)
  | 0, _, _ => none
  | _ + 1, [], e => some e
  | fuel + 1, bs, e =>
    match proto.DecodeVarint bs with
    | none => none
    | some (key, rest) =>
      if key / 8 = 0 then none
      else if key = 10 ∨ key = 18 then
        match proto.DecodeRawBytes rest with
        | none => none
        | some (raw, rest1) =>
          match utf8.toString raw with
          | none => none
          | some s =>
            proto.decodeEntry fuel rest1 (if key = 10 then (s, e.2) else (e.1, s))
      else if key / 8 = 1 ∨ key / 8 = 2 then none
      else match proto.skipField (key % 8) rest with
        | none => none
        | some rest1 => proto.decodeEntry fuel rest1 e

/-- Stores a fixed64 field in the record. -/
def proto.setFixed64 (field : Nat) (v : Nat) (st : wire.TracerState) : wire.TracerState :=
  if field = 1 then { st with TraceId := v }
  else if field = 2 then { st with SpanId := v }
  else if field = 20 then { st with TraceIdHigh := v }
  else if field = 21 then { st with ParentSpanId := v }
  else { st with Flags := v }

/-- Decoding loop of a `wire.TracerState`: one field per round; a field the message
does not know is skipped; tag 0, a known field with another wire type, a value cut short
are errors. -/
def proto.unmarshalLoop : Nat → List Nat → wire.TracerState → Except GoError wire.TracerState
  | 0, _, _ => Except.error (GoError.other 0)
  | _ + 1, [], st => Except.ok st
  | fuel + 1, bs, st =>
    match proto.DecodeVarint bs with
    | none => Except.error GoError.ErrUnexpectedEOF
    | some (key, rest) =>
      let field := key / 8
      let wireType := key % 8
      if field = 0 then Except.error (GoError.other 1)
      else if field = 1 ∨ field = 2 ∨ field = 20 ∨ field = 21 ∨ field = 22 then
        if wireType = 1 then
          match proto.takeBytes 8 rest with
          | none => Except.error GoError.ErrUnexpectedEOF
          | some (raw, rest1) =>
            proto.unmarshalLoop fuel rest1 (proto.setFixed64 field (proto.littleEndian raw) st)
        else Except.error (GoError.other 2)
      else if field = 3 then
        if wireType = 0 then
          match proto.DecodeVarint rest with
          | none => Except.error GoError.ErrUnexpectedEOF
          | some (v, rest1) => proto.unmarshalLoop fuel rest1 { st with Sampled := v != 0 }
        else Except.error (GoError.other 2)
      else if field = 4 then
        if wireType = 2 then
          match proto.DecodeRawBytes rest with
          | none => Except.error GoError.ErrUnexpectedEOF
          | some (raw, rest1) =>
            match proto.decodeEntry (raw.length + 1) raw ("", "") with
            | none => Except.error (GoError.other 3)
            | some e =>
              proto.unmarshalLoop fuel rest1
                { st with BaggageItems := mapSet st.BaggageItems e.1 e.2 }
        else Except.error (GoError.other 2)
      else match proto.skipField wireType rest with
        | none => Except.error GoError.ErrUnexpectedEOF
        | some rest1 => proto.unmarshalLoop fuel rest1 st

/-- Decoding of a `wire.TracerState` from its protocol-buffers bytes. -/
def proto.Unmarshal (buf : List Nat) : Except GoError wire.TracerState :=
  proto.unmarshalLoop (buf.length + 1) buf wire.TracerState.zero

/-- The protocol-buffers serializer of the record. -/
def wire.proto : wire.Codec := { Marshal := proto.Marshal, Unmarshal := proto.Unmarshal }


/-! ## Text codec: the parts that are imported -/

/-- The header names of package `b3` (`b3.TraceID`, `b3.SpanID`, `b3.ParentSpanID`,
`b3.Sampled`, `b3.Flags`), a parameter of the text codec. -/
structure b3.Names where
  TraceID : String
  SpanID : String
  ParentSpanID : String
  Sampled : String
  Flags : String
  deriving DecidableEq, Repr

/-- Function `strings.ToLower`: every code point is mapped by `unicode.ToLower`, which
is the parameter `lower`. -/
def strings.ToLower (lower : Char → Char) (s : String) : String :=
  String.mk (s.data.map lower)

/-- Function `strings.HasPrefix`. -/
def strings.HasPrefix (s pre : String) : Bool :=
  pre.data.isPrefixOf s.data

/-- Function `strings.TrimPrefix`. -/
def strings.TrimPrefix (s pre : String) : String :=
  if strings.HasPrefix s pre then String.mk (s.data.drop pre.data.length) else s

/-- An `ot.TextMapWriter` with states in `σ`: `Set s key val` is the carrier after
`Set(key, val)`. -/
structure ot.TextMapWriter (σ : Type) where
  Set : σ → String → String → σ

/-- An `ot.TextMapReader` with states in `σ`: `ForeachKey s` is the sequence of pairs
the carrier hands to the handler, which never stops the iteration (it returns nil). -/
structure ot.TextMapReader (σ : Type) where
  ForeachKey : σ → List (String × String)

/-- The lower-case hexadecimal digit of a value below 16. -/
def hex.digit (d : Nat) : Char :=
  if d < 10 then Char.ofNat (48 + d) else Char.ofNat (87 + d)

/-- The `width` lowest hexadecimal digits of `v`, most significant first. -/
def hex.digits : Nat → Nat → List Char
  | 0, _ => []
  | width + 1, v => hex.digits width (v / 16) ++ [hex.digit (v % 16)]

/-- Value of one hexadecimal digit, `none` for any other character. -/
def hex.digitValue (c : Char) : Option Nat :=
  let n := c.toNat
  if 48 ≤ n ∧ n ≤ 57 then some (n - 48)
  else if 97 ≤ n ∧ n ≤ 102 then some (n - 87)
  else if 65 ≤ n ∧ n ≤ 70 then some (n - 55)
  else none

/-- Value of a string of hexadecimal digits read after the value `acc`, `none` when a
character is not a digit. -/
def hex.value : List Char → Nat → Option Nat
  | [], acc => some acc
  | c :: cs, acc =>
    match hex.digitValue c with
    | none => none
    | some d => hex.value cs (acc * 16 + d)

/-- Modelled from the spec: `model.ID.String`, the canonical form of a 64-bit id, taken
to be its 16 hexadecimal digits. -/
def model.ID.String (id : Nat) : GoString :=
  String.mk (hex.digits 16 id)

/-- Modelled from the spec: `model.TraceID.String`, a fixed-width hexadecimal string of
16 digits when the high half is zero and of 32 digits otherwise. -/
def model.TraceID.String (t : model.TraceID) : GoString :=
  if t.High = 0 then String.mk (hex.digits 16 t.Low)
  else String.mk (hex.digits 16 t.High ++ hex.digits 16 t.Low)

/-- Modelled from the spec: parsing of a 64-bit id from its 16 hexadecimal digits; any
other length and any other character is malformed. -/
def model.ID.FromHex (h : GoString) : Option Nat :=
  if h.data.length = 16 then hex.value h.data 0 else none

/-- Modelled from the spec: parsing of a trace id from 16 or 32 hexadecimal digits; the
16-digit form has a zero high half. -/
def model.TraceID.FromHex (h : GoString) : Option model.TraceID :=
  if h.data.length = 16 then
    (hex.value h.data 0).map (fun low => { High := 0, Low := low })
  else if h.data.length = 32 then
    match hex.value (h.data.take 16) 0, hex.value (h.data.drop 16) 0 with
    | some high, some low => some { High := high, Low := low }
    | _, _ => none
  else none

/-- Modelled from the spec: the shared header-parsing routine `b3.ParseHeaders` (not
among the sources). `flags` equal to `1` gives Debug and therefore Sampled = true;
`sampled` equal to `1` or `true` gives true, `0` or `false` gives false, anything else
leaves it unset; the trace id and the span id are both present and well formed or both
absent; a parent id needs a trace and span pair; a malformed id is rejected. A header
that was not seen is the empty string. -/
def b3.ParseHeaders (hdrTraceID hdrSpanID hdrParentSpanID hdrSampled hdrFlags : String) :
    Except GoError model.SpanContext :=
  let debug : Bool := hdrFlags = "1"
  let sampled : Option Bool :=
    if debug then some true
    else if hdrSampled = "1" ∨ hdrSampled = "true" then some true
    else if hdrSampled = "0" ∨ hdrSampled = "false" then some false
    else none
  if hdrTraceID = "" ∧ hdrSpanID = "" then
    if hdrParentSpanID = "" then
      Except.ok { TraceID := { High := 0, Low := 0 }, ID := 0, ParentID := none,
                  Debug := debug, Sampled := sampled }
    else Except.error (GoError.other 14)
  else if hdrTraceID = "" ∨ hdrSpanID = "" then Except.error (GoError.other 13)
  else
    match model.TraceID.FromHex hdrTraceID, model.ID.FromHex hdrSpanID with
    | some traceID, some id =>
      if hdrParentSpanID = "" then
        Except.ok { TraceID := traceID, ID := id, ParentID := none,
                    Debug := debug, Sampled := sampled }
      else
        match model.ID.FromHex hdrParentSpanID with
        | some parentID =>
          Except.ok { TraceID := traceID, ID := id, ParentID := some parentID,
                      Debug := debug, Sampled := sampled }
        | none => Except.error (GoError.other 12)
    | none, _ => Except.error (GoError.other 10)
    | some _, none => Except.error (GoError.other 11)

/-! ## Text codec -/

/-- Constant `prefixBaggage`. -/
def prefixBaggage : String := "ot-baggage-"

/-- Method `textMapPropagator.Inject`: the error it returns (`none` is `nil`) and the
carrier after the call. The baggage is written in the order of the association list,
which stands for the order of `range sc.baggage`. -/
def textMapPropagator.Inject {σ : Type} (N : b3.Names) (w : ot.TextMapWriter σ)
    (spanContext : ot.SpanContext) (opaqueCarrier : Carrier σ) :
    Option GoError × Carrier σ :=
  match spanContext with
  | ot.SpanContext.value sc =>
    match opaqueCarrier with
    | Carrier.supported carrier =>
      let carrier :=
        if sc.SpanContext.Debug then w.Set carrier N.Flags "1"
        else match sc.SpanContext.Sampled with
          | some true => w.Set carrier N.Sampled "1"
          | some false => w.Set carrier N.Sampled "0"
          | none => carrier
      let carrier :=
        if !sc.SpanContext.TraceID.Empty && sc.SpanContext.ID > 0 then
          let carrier := w.Set carrier N.TraceID sc.SpanContext.TraceID.String
          let carrier := w.Set carrier N.SpanID (model.ID.String sc.SpanContext.ID)
          match sc.SpanContext.ParentID with
          | some parentID => w.Set carrier N.ParentSpanID (model.ID.String parentID)
          | none => carrier
        else carrier
      let carrier :=
        sc.baggage.foldl (fun c kv => w.Set c (prefixBaggage ++ kv.1) kv.2) carrier
      (none, Carrier.supported carrier)
    | Carrier.unsupported => (some GoError.ErrInvalidCarrier, Carrier.unsupported)
  | _ => (some GoError.ErrInvalidSpanContext, opaqueCarrier)

/-- The variables of `textMapPropagator.Extract` that the handler of `ForeachKey`
assigns. -/
structure textMapPropagator.Extract.Vars where
  hdrTraceID : String
  hdrSpanID : String
  hdrParentSpanID : String
  hdrSampled : String
  hdrFlags : String
  decodedBaggage : List (String × String)
  deriving DecidableEq, Repr

/-- The variables before the iteration: empty strings and an empty map. -/
def textMapPropagator.Extract.init : textMapPropagator.Extract.Vars :=
  { hdrTraceID := "", hdrSpanID := "", hdrParentSpanID := "", hdrSampled := "",
    hdrFlags := "", decodedBaggage := [] }

/-- The handler passed to `ForeachKey` (lines 83-102): one `switch` on the lower-cased
key. -/
def textMapPropagator.Extract.handler (lower : Char → Char) (N : b3.Names)
    (vars : textMapPropagator.Extract.Vars) (kv : String × String) :
    textMapPropagator.Extract.Vars :=
  let k := kv.1
  let v := kv.2
  if strings.ToLower lower k = N.TraceID then { vars with hdrTraceID := v }
  else if strings.ToLower lower k = N.SpanID then { vars with hdrSpanID := v }
  else if strings.ToLower lower k = N.ParentSpanID then { vars with hdrParentSpanID := v }
  else if strings.ToLower lower k = N.Sampled then { vars with hdrSampled := v }
  else if strings.ToLower lower k = N.Flags then { vars with hdrFlags := v }
  else
    let lowercaseK := strings.ToLower lower k
    if strings.HasPrefix lowercaseK prefixBaggage then
      let key := strings.TrimPrefix lowercaseK prefixBaggage
      { vars with decodedBaggage := mapSet vars.decodedBaggage key v }
    else vars

/-- Method `textMapPropagator.Extract`: an error or the context it returns. -/
def textMapPropagator.Extract {σ : Type} (lower : Char → Char) (N : b3.Names)
    (r : ot.TextMapReader σ) (opaqueCarrier : Carrier σ) : Except GoError spanContextImpl :=
  match opaqueCarrier with
  | Carrier.unsupported => Except.error GoError.ErrInvalidCarrier
  | Carrier.supported carrier =>
    let vars := (r.ForeachKey carrier).foldl (textMapPropagator.Extract.handler lower N)
      textMapPropagator.Extract.init
    match b3.ParseHeaders vars.hdrTraceID vars.hdrSpanID vars.hdrParentSpanID
        vars.hdrSampled vars.hdrFlags with
    | Except.error _ => Except.error GoError.ErrSpanContextCorrupted
    | Except.ok spanContext =>
      Except.ok { SpanContext := spanContext, baggage := vars.decodedBaggage }

/-! ## Concrete text carriers and names -/

/-- Modelled from the spec: the header names of package `b3` (not among the sources),
`X-B3-TraceId`, `X-B3-SpanId`, `X-B3-ParentSpanId`, `X-B3-Sampled`, `X-B3-Flags`, in
lower case, the form in which the handler of `Extract` can meet them. -/
def b3.names : b3.Names :=
  { TraceID := "x-b3-traceid", SpanID := "x-b3-spanid", ParentSpanID := "x-b3-parentspanid",
    Sampled := "x-b3-sampled", Flags := "x-b3-flags" }

/-- A carrier that records the `Set` calls it receives, in order. -/
def recorder : ot.TextMapWriter (List (String × String)) :=
  { Set := fun calls key val => calls ++ [(key, val)] }

/-- Type `ot.TextMapCarrier`, a `map[string]string`, as a writer: `Set` is `c[key] = val`. -/
def ot.TextMapCarrier.writer : ot.TextMapWriter (List (String × String)) :=
  { Set := mapSet }

/-- Type `ot.TextMapCarrier` as a reader that happens to iterate in the order of the
association list. -/
def ot.TextMapCarrier.reader : ot.TextMapReader (List (String × String)) :=
  { ForeachKey := fun c => c }

/-- The Set calls of one `textMapPropagator.Inject`, in order (empty when the context
is rejected). -/
def textMapPropagator.Inject.calls (N : b3.Names) (spanContext : ot.SpanContext) :
    List (String × String) :=
  match (textMapPropagator.Inject N recorder spanContext (Carrier.supported [])).2 with
  | Carrier.supported calls => calls
  | Carrier.unsupported => []

/-- The binary round trip through a `bytes.Buffer`: `Inject` into an empty buffer, then
`Extract` from what was written. -/
def binaryPropagator.roundTrip (F : flag.Masks) (W : wire.Codec) (fuel : Nat)
    (sc : spanContextImpl) : Option (Except GoError spanContextImpl) :=
  binaryPropagator.Extract F W bytes.Buffer.reader fuel
    (binaryPropagator.Inject F W bytes.Buffer.writer (ot.SpanContext.value sc)
      (Carrier.supported [])).2


/-- The five header names differ from one another (they are the cases of one `switch`)
and none of them starts with `prefixBaggage`. -/
def b3.Names.Distinct (N : b3.Names) : Prop :=
  [N.TraceID, N.SpanID, N.ParentSpanID, N.Sampled, N.Flags].Nodup ∧
  ∀ n ∈ [N.TraceID, N.SpanID, N.ParentSpanID, N.Sampled, N.Flags],
    strings.HasPrefix n prefixBaggage = false

instance (N : b3.Names) : Decidable N.Distinct := by
  unfold b3.Names.Distinct; infer_instance

/-- The five header names are their own lower-case form, so that the handler of
`Extract`, which compares them with a lower-cased key, can meet them. -/
def b3.Names.Lowered (lower : Char → Char) (N : b3.Names) : Prop :=
  ∀ n ∈ [N.TraceID, N.SpanID, N.ParentSpanID, N.Sampled, N.Flags],
    strings.ToLower lower n = n

instance (lower : Char → Char) (N : b3.Names) : Decidable (N.Lowered lower) := by
  unfold b3.Names.Lowered; infer_instance

/-- The ids of a context are `uint64` values. -/
def model.SpanContext.InRange (sc : model.SpanContext) : Prop :=
  sc.TraceID.High < 2 ^ 64 ∧ sc.TraceID.Low < 2 ^ 64 ∧ sc.ID < 2 ^ 64 ∧
  ∀ p ∈ sc.ParentID, p < 2 ^ 64

instance (sc : model.SpanContext) : Decidable sc.InRange := by
  unfold model.SpanContext.InRange; infer_instance

/-- The calls `Inject` makes for the sampling decision (lines 40-50). -/
def textMapPropagator.Inject.samplingCalls (N : b3.Names) (sc : spanContextImpl) :
    List (String × String) :=
  if sc.SpanContext.Debug then [(N.Flags, "1")]
  else match sc.SpanContext.Sampled with
    | some true => [(N.Sampled, "1")]
    | some false => [(N.Sampled, "0")]
    | none => []

/-- The calls `Inject` makes for the ids (lines 52-58). -/
def textMapPropagator.Inject.idCalls (N : b3.Names) (sc : spanContextImpl) :
    List (String × String) :=
  if !sc.SpanContext.TraceID.Empty && sc.SpanContext.ID > 0 then
    [(N.TraceID, sc.SpanContext.TraceID.String),
     (N.SpanID, model.ID.String sc.SpanContext.ID)] ++
    (match sc.SpanContext.ParentID with
      | some parentID => [(N.ParentSpanID, model.ID.String parentID)]
      | none => [])
  else []

/-- The calls `Inject` makes for the baggage (lines 60-62). -/
def textMapPropagator.Inject.baggageCalls (sc : spanContextImpl) : List (String × String) :=
  sc.baggage.map (fun kv => (prefixBaggage ++ kv.1, kv.2))

/-- The text round trip through an `ot.TextMapCarrier`: `Inject` into an empty map, then
`Extract` with a reader `r` of that map. -/
def textMapPropagator.roundTrip (lower : Char → Char) (N : b3.Names)
    (r : ot.TextMapReader (List (String × String))) (sc : spanContextImpl) :
    Except GoError spanContextImpl :=
  textMapPropagator.Extract lower N r
    (textMapPropagator.Inject N ot.TextMapCarrier.writer (ot.SpanContext.value sc)
      (Carrier.supported [])).2

/-- The pairs of a carrier with every key lower-cased, as the handler of `Extract` sees
them. -/
def lowerKeys (lower : Char → Char) (l : List (String × String)) : List (String × String) :=
  l.map (fun kv => (strings.ToLower lower kv.1, kv.2))

/-- The sampling decision a context stands for: Debug is a decision to sample, otherwise
it is the Sampled field. -/
def model.SpanContext.resolvedSampled (sc : model.SpanContext) : Option Bool :=
  if sc.Debug then some true else sc.Sampled
/-! ## Derived notions for the statements on the codecs -/

/-- The value of the last pair, in iteration order, whose lower-cased key is `key`;
`none` when no pair has that key. -/
def lastValue (lower : Char → Char) (pairs : List (String × String)) (key : String) :
    Option String :=
  ((pairs.filter (fun kv => strings.ToLower lower kv.1 = key)).getLast?).map Prod.snd

/-- A pair the handler of `Extract` reacts to: its lower-cased key is one of the five
header names or starts with `prefixBaggage`. -/
def textMapPropagator.Extract.recognized (lower : Char → Char) (N : b3.Names)
    (kv : String × String) : Bool :=
  decide (strings.ToLower lower kv.1 ∈
    [N.TraceID, N.SpanID, N.ParentSpanID, N.Sampled, N.Flags]) ||
  strings.HasPrefix (strings.ToLower lower kv.1) prefixBaggage

/-- A writer together with the list of the writes attempted on it, in order: every
`Write(p)` is passed on to `w` and `p` is added to the list. -/
def io.Writer.logged {σ : Type} (w : io.Writer σ) : io.Writer (σ × List (List Nat)) :=
  { Write := fun s p => ((w.Write s.1 p).1, ((w.Write s.1 p).2, s.2 ++ [p])) }

/-! ## Tracer and span (`tracer.go`, `span.go`) -/

/-- Type `ot.SpanReferenceType` with its two constants; any other value of the
underlying integer type is `unknown`. -/
inductive ot.SpanReferenceType where
  | ChildOfRef
  | FollowsFromRef
  | unknown (n : Nat)
  deriving DecidableEq, Repr

/-- Type `ot.SpanReference`: the field `Type` (here `RefType`) and the referenced
context. -/
structure ot.SpanReference where
  RefType : ot.SpanReferenceType
  ReferencedContext : ot.SpanContext
  deriving DecidableEq, Repr

/-- Type `ot.StartSpanOptions`, the options of `StartSpan` after every
`opt.Apply(&otSpanOptions)`: the references in the order they were added, the start
time (0 is the zero time) and the tags, whose values have any type `V`. -/
structure ot.StartSpanOptions (V : Type) where
  References : List ot.SpanReference
  StartTime : Nat
  Tags : List (String × V)

/-- The options `StartSpan` hands to the underlying tracer: `zipkin.StartTime`,
`zipkin.Parent` and `zipkin.Tags`. -/
inductive zipkin.SpanOption where
  | StartTime (t : Nat)
  | Parent (sc : model.SpanContext)
  | Tags (tags : List (String × String))
  deriving DecidableEq, Repr

/-- Type `spanImpl` (`span.go`): the span of the underlying tracer and the baggage (the
field `tracer`, a pointer back to the adapter, is left out). -/
structure spanImpl (Span : Type) where
  span : Span
  baggage : List (String × String)
  deriving DecidableEq, Repr

/-- The zero value `model.SpanContext{}`, which `spanContext` holds before the loop over
the references. -/
def model.SpanContext.zero : model.SpanContext :=
  { TraceID := { High := 0, Low := 0 }, ID := 0, ParentID := none, Debug := false,
    Sampled := none }

/-- The loop over `otSpanOptions.References` of `tracerImpl.StartSpan` (lines 42-57),
on the pair `(spanContext, otBaggage)`. Both cases of the `switch` assign the pair; the
`break` of the `ChildOfRef` case ends the `switch` statement, after which the `for` loop
goes on with the next reference. The type assertion `.(spanContextImpl)` has no `ok`
result: on any other dynamic type it panics, which is `none`. -/
def tracerImpl.StartSpan.references :
    List ot.SpanReference → model.SpanContext × List (String × String) →
      Option (model.SpanContext × List (String × String))
  | [], acc => some acc
  | ref :: refs, acc =>
    match ref.RefType with
    | ot.SpanReferenceType.ChildOfRef =>
      match ref.ReferencedContext with
      | ot.SpanContext.value refCtx =>
        tracerImpl.StartSpan.references refs (refCtx.SpanContext, refCtx.baggage)
      | _ => none
    | ot.SpanReferenceType.FollowsFromRef =>
      match ref.ReferencedContext with
      | ot.SpanContext.value refCtx =>
        -- we override with next occurence in the hope we find a childOf ref
        tracerImpl.StartSpan.references refs (refCtx.SpanContext, refCtx.baggage)
      | _ => none
    | ot.SpanReferenceType.unknown _ => tracerImpl.StartSpan.references refs acc

/-- Method `tracerImpl.StartSpan`. `tracer` is `t.tracer.StartSpan` of the underlying
tracer and `format` is `fmt.Sprintf("%+v", v)`; the result is `none` when a type
assertion panics. -/
def tracerImpl.StartSpan {Span V : Type} (tracer : String → List zipkin.SpanOption → Span)
    (format : V → String) (operationName : String) (otSpanOptions : ot.StartSpanOptions V) :
    Option (spanImpl Span) :=
  let spanOptions : List zipkin.SpanOption :=
    if otSpanOptions.StartTime ≠ 0 then [zipkin.SpanOption.StartTime otSpanOptions.StartTime]
    else []
  -- TODO: we only support one parent at the moment
  match tracerImpl.StartSpan.references otSpanOptions.References
      (model.SpanContext.zero, []) with
  | none => none
  | some (spanContext, otBaggage) =>
    let spanOptions := spanOptions ++ [zipkin.SpanOption.Parent spanContext]
    let defaultTags :=
      otSpanOptions.Tags.foldl (fun m kv => mapSet m kv.1 (format kv.2)) []
    let spanOptions :=
      if defaultTags.length > 0 then spanOptions ++ [zipkin.SpanOption.Tags defaultTags]
      else spanOptions
    some { span := tracer operationName spanOptions, baggage := otBaggage }

/-- Method `spanImpl.Context` (`span.go`): a pointer to a fresh `spanContextImpl`.
`Context` is `s.span.Context()` of the underlying span. -/
def spanImpl.Context {Span : Type} (Context : Span → model.SpanContext) (s : spanImpl Span) :
    ot.SpanContext :=
  ot.SpanContext.pointer { SpanContext := Context s.span, baggage := s.baggage }

/-- The `format` argument of `tracerImpl.Inject`: one of the three built-in formats of
OpenTracing or any other value. -/
inductive ot.Format where
  | Binary
  | TextMap
  | HTTPHeaders
  | custom (n : Nat)
  deriving DecidableEq, Repr

/-- Method `tracerImpl.Inject`. The opaque carrier is given by what each of the two type
assertions makes of it: `textCarrier` for `.(ot.TextMapWriter)` and `binaryCarrier` for
`.(io.Writer)`. The result is the error and the carrier after the call, again in both
views. -/
def tracerImpl.Inject {σ τ : Type} (N : b3.Names) (F : flag.Masks) (W : wire.Codec)
    (tw : ot.TextMapWriter σ) (bw : io.Writer τ) (sc : ot.SpanContext) (format : ot.Format)
    (textCarrier : Carrier σ) (binaryCarrier : Carrier τ) :
    Option GoError × Carrier σ × Carrier τ :=
  match format with
  | ot.Format.TextMap | ot.Format.HTTPHeaders =>
    let res := textMapPropagator.Inject N tw sc textCarrier
    (res.1, res.2, binaryCarrier)
  | ot.Format.Binary =>
    let res := binaryPropagator.Inject F W bw sc binaryCarrier
    (res.1, textCarrier, res.2)
  | ot.Format.custom _ => (some GoError.ErrUnsupportedFormat, textCarrier, binaryCarrier)

/-- The variables of the text `Extract` after the handler has seen every pair. -/
def textMapPropagator.Extract.collected (lower : Char → Char) (N : b3.Names)
    (pairs : List (String × String)) : textMapPropagator.Extract.Vars :=
  pairs.foldl (textMapPropagator.Extract.handler lower N) textMapPropagator.Extract.init

/-! ## Lemmas on flags and byte streams -/

theorem flag.isSet_bit (x i : Nat) : flag.isSet x (1 <<< i) = x.testBit i := by
  unfold flag.isSet
  rw [Nat.one_shiftLeft, Nat.and_two_pow]
  have hpos : 0 < 2 ^ i := Nat.two_pow_pos i
  cases h : x.testBit i
  · simp only [Bool.toNat_false, Nat.zero_mul, beq_eq_false_iff_ne, ne_eq]
    exact Nat.ne_of_lt hpos
  · simp

theorem binary.BigEndian.Uint32_PutUint32 (v : Nat) :
    binary.BigEndian.Uint32 (binary.BigEndian.PutUint32 v) = v % 2 ^ 32 := by
  simp only [binary.BigEndian.Uint32, binary.BigEndian.PutUint32, Nat.reducePow]
  omega

theorem io.ReadFull_buffer (fuel : Nat) (p rest : List Nat) (hp : p.length = 4) :
    io.ReadFull bytes.Buffer.reader (fuel + 1) (p ++ rest) 4 = some (p, none, rest) := by
  have hne : p ++ rest ≠ [] := by
    intro h
    rw [(List.append_eq_nil.mp h).1] at hp
    simp at hp
  unfold io.ReadFull
  rw [io.ReadFull.loop.eq_def]
  simp only [List.length_nil, Nat.lt_add_one, and_self, ↓reduceIte, Nat.sub_zero,
    bytes.Buffer.reader, bytes.Buffer.Read, hne, List.nil_append]
  have h1 : List.take 4 (p ++ rest) = p := by
    rw [← hp]; exact List.take_left _ _
  have h2 : List.drop 4 (p ++ rest) = rest := by
    rw [← hp]; exact List.drop_left _ _
  rw [h1, h2]
  have h3 : List.take 4 p = p := by
    rw [← hp]; exact List.take_length _
  rw [h3, io.ReadFull.loop.eq_def]
  simp [hp]

theorem binaryPropagator.Inject_buffer (F : flag.Masks) (W : wire.Codec)
    (sc : spanContextImpl) (b : List Nat)
    (hm : W.Marshal (binaryPropagator.Inject.state F sc) = Except.ok b) :
    binaryPropagator.Inject F W bytes.Buffer.writer (ot.SpanContext.value sc)
        (Carrier.supported []) =
      (none, Carrier.supported (binary.BigEndian.PutUint32 (b.length % 2 ^ 32) ++ b)) := by
  simp [binaryPropagator.Inject, hm, binary.Write, bytes.Buffer.writer, bytes.Buffer.Write]

theorem binaryPropagator.Extract_buffer (F : flag.Masks) (W : wire.Codec) (fuel : Nat)
    (b : List Nat) (hlen : b.length < 2 ^ 32) :
    binaryPropagator.Extract F W bytes.Buffer.reader (fuel + 1)
        (Carrier.supported (binary.BigEndian.PutUint32 (b.length % 2 ^ 32) ++ b)) =
      some (binaryPropagator.Extract.decode F W b) := by
  have h4 : (binary.BigEndian.PutUint32 (b.length % 2 ^ 32)).length = 4 := rfl
  have hL : binary.BigEndian.Uint32 (binary.BigEndian.PutUint32 (b.length % 2 ^ 32))
      = b.length := by
    rw [binary.BigEndian.Uint32_PutUint32, Nat.mod_mod, Nat.mod_eq_of_lt hlen]
  simp only [binaryPropagator.Extract, binary.Read, io.ReadFull_buffer fuel _ b h4, hL]
  by_cases hb : b = []
  · subst hb
    simp [bytes.Buffer.reader, bytes.Buffer.Read, io.fill]
  · simp [bytes.Buffer.reader, bytes.Buffer.Read, io.fill, hb]

theorem binaryPropagator.Extract_of_record {σ : Type} (F : flag.Masks) (W : wire.Codec)
    (r : io.Reader σ) (fuel : Nat) (s s1 : σ) (L : Nat) (record : wire.TracerState)
    (hL : binary.Read r fuel s = some (Except.ok L, s1))
    (he : (r.Read s1 L).err = none)
    (hu : W.Unmarshal (io.fill L (r.Read s1 L).data) = Except.ok record) :
    binaryPropagator.Extract F W r fuel (Carrier.supported s) =
      some (Except.ok (binaryPropagator.Extract.context F record)) := by
  simp [binaryPropagator.Extract, hL, he, binaryPropagator.Extract.decode, hu]

theorem flag.testBit_mask (k i : Nat) : (1 <<< k).testBit i = decide (k = i) := by
  rw [Nat.one_shiftLeft, Nat.testBit_two_pow]

theorem binaryPropagator.Inject.state_flags (F : flag.Masks) (sc : spanContextImpl)
    (i : Nat) :
    (binaryPropagator.Inject.state F sc).Flags.testBit i =
      (decide (F.debugPos = i) ||
        (sc.SpanContext.ParentID.isNone && decide (F.isRootPos = i)) ||
        decide (F.samplingSetPos = i) ||
        (sc.SpanContext.Sampled == some true && decide (F.sampledPos = i))) := by
  unfold binaryPropagator.Inject.state flag.Masks.Debug flag.Masks.IsRoot
    flag.Masks.SamplingSet flag.Masks.Sampled
  simp only [Nat.one_shiftLeft]
  rcases hp : sc.SpanContext.ParentID with _ | p <;>
    rcases hs : sc.SpanContext.Sampled with _ | _ | _ <;>
    simp [Nat.testBit_or, Nat.testBit_two_pow]

theorem binaryPropagator.Inject.state_sampled_bit (F : flag.Masks) (hF : F.Distinct)
    (sc : spanContextImpl) :
    flag.isSet (binaryPropagator.Inject.state F sc).Flags F.Sampled =
      (sc.SpanContext.Sampled == some true) := by
  obtain ⟨_, h2, _, h4, _, h6⟩ := hF
  rw [flag.Masks.Sampled, flag.isSet_bit, binaryPropagator.Inject.state_flags]
  simp [h2, h4, Ne.symm h6]

/-! ## Binary codec: the claims -/

/-- Claim C1, as stated, fails: the context with no parent, no sampling decision and
Debug set comes back from the binary round trip with a parent 0, with Sampled set to
false and with Debug cleared. -/
theorem binaryPropagator.roundTrip_not_identity :
    binaryPropagator.roundTrip flag.standard wire.proto 4
        ⟨⟨⟨0, 5⟩, 7, none, true, none⟩, [("a", "b")]⟩ =
      some (Except.ok ⟨⟨⟨0, 5⟩, 7, some 0, false, some false⟩, [("a", "b")]⟩) ∧
    (⟨⟨⟨0, 5⟩, 7, some 0, false, some false⟩, [("a", "b")]⟩ : spanContextImpl) ≠
      ⟨⟨⟨0, 5⟩, 7, none, true, none⟩, [("a", "b")]⟩ := by
  decide

/-- Claim C1 (amended). For every context whose record the serializer encodes in fewer
than 2^32 bytes and decodes back (baggage up to the order of the entries), `Extract`
applied to what `Inject` wrote into an empty `bytes.Buffer` succeeds, and the context it
returns has the TraceID, the SpanID and the baggage entries of the injected one, a
ParentID that is always present (the injected value, or 0 when there was none) and a
Sampled that is always set (true exactly when the injected one was set and true). -/
theorem binaryPropagator.roundTrip_fields (F : flag.Masks) (W : wire.Codec) (fuel : Nat)
    (sc : spanContextImpl) (b : List Nat) (items : List (String × String))
    (hF : F.Distinct)
    (hm : W.Marshal (binaryPropagator.Inject.state F sc) = Except.ok b)
    (hlen : b.length < 2 ^ 32)
    (hu : W.Unmarshal b =
      Except.ok { binaryPropagator.Inject.state F sc with BaggageItems := items })
    (hitems : items.Perm sc.baggage) :
    ∃ ctx, binaryPropagator.roundTrip F W (fuel + 1) sc = some (Except.ok ctx) ∧
      ctx.SpanContext.TraceID = sc.SpanContext.TraceID ∧
      ctx.SpanContext.ID = sc.SpanContext.ID ∧
      ctx.SpanContext.ParentID = some (sc.SpanContext.ParentID.getD 0) ∧
      ctx.SpanContext.Sampled = some (sc.SpanContext.Sampled == some true) ∧
      ctx.baggage.Perm sc.baggage := by
  refine ⟨binaryPropagator.Extract.context F
    { binaryPropagator.Inject.state F sc with BaggageItems := items }, ?_, ?_, ?_, ?_, ?_, ?_⟩
  · rw [binaryPropagator.roundTrip, binaryPropagator.Inject_buffer F W sc b hm]
    show binaryPropagator.Extract F W bytes.Buffer.reader (fuel + 1)
      (Carrier.supported (binary.BigEndian.PutUint32 (b.length % 2 ^ 32) ++ b)) = _
    rw [binaryPropagator.Extract_buffer F W fuel b hlen, binaryPropagator.Extract.decode, hu]
  · simp [binaryPropagator.Extract.context, binaryPropagator.Inject.state]
  · simp [binaryPropagator.Extract.context, binaryPropagator.Inject.state]
  · cases hp : sc.SpanContext.ParentID <;>
      simp [binaryPropagator.Extract.context, binaryPropagator.Inject.state, hp]
  · have hbit := binaryPropagator.Inject.state_sampled_bit F hF sc
    have hs : (binaryPropagator.Inject.state F sc).Sampled
        = (sc.SpanContext.Sampled == some true) := rfl
    simp only [binaryPropagator.Extract.context, hbit, hs]
    cases sc.SpanContext.Sampled == some true <;> simp
  · exact hitems

/-- Witness of C1 (amended): the context with no parent, no sampling decision, Debug set
and one baggage entry, with the standard masks and the protocol-buffers serializer. -/
theorem binaryPropagator.roundTrip_fields_witness :
    ∃ ctx, binaryPropagator.roundTrip flag.standard wire.proto 1
        ⟨⟨⟨0, 5⟩, 7, none, true, none⟩, [("a", "b")]⟩ = some (Except.ok ctx) ∧
      ctx.SpanContext.TraceID = ⟨0, 5⟩ ∧ ctx.SpanContext.ID = 7 ∧
      ctx.SpanContext.ParentID = some 0 ∧ ctx.SpanContext.Sampled = some false ∧
      ctx.baggage.Perm [("a", "b")] :=
  binaryPropagator.roundTrip_fields flag.standard wire.proto 0
    ⟨⟨⟨0, 5⟩, 7, none, true, none⟩, [("a", "b")]⟩
    [9, 5, 0, 0, 0, 0, 0, 0, 0, 17, 7, 0, 0, 0, 0, 0, 0, 0, 34, 6, 10, 1, 97, 18, 1, 98,
      177, 1, 11, 0, 0, 0, 0, 0, 0, 0]
    [("a", "b")] (by decide) (by decide) (by decide) (by decide) (List.Perm.refl _)

/-- Claim C4 (the code departs from it). The `bytes.Buffer` that holds the length 10 and
only the three bytes 177, 1, 4 after it answers the body read with the count 3 and no
error; the count is looked at only when the read reports an error, so `Extract` goes on
to deserialize the buffer 177, 1, 4, 0, ..., 0 (the field `flags` with value 4) and
returns a context instead of `ErrSpanContextCorrupted`. So does the buffer that holds
the length 9 and only the bytes 9, 1, 0 (the field `trace_id` with value 1). -/
theorem binaryPropagator.Extract_short_read_accepted :
    binary.Read bytes.Buffer.reader 4 [0, 0, 0, 10, 177, 1, 4] =
      some (Except.ok 10, [177, 1, 4]) ∧
    (bytes.Buffer.reader.Read [177, 1, 4] 10).data.length = 3 ∧
    (bytes.Buffer.reader.Read [177, 1, 4] 10).err = none ∧
    binaryPropagator.Extract flag.standard wire.proto bytes.Buffer.reader 4
        (Carrier.supported [0, 0, 0, 10, 177, 1, 4]) =
      some (Except.ok ⟨⟨⟨0, 0⟩, 0, some 0, false, some true⟩, []⟩) ∧
    binary.Read bytes.Buffer.reader 4 [0, 0, 0, 9, 9, 1, 0] =
      some (Except.ok 9, [9, 1, 0]) ∧
    (bytes.Buffer.reader.Read [9, 1, 0] 9).data.length = 3 ∧
    (bytes.Buffer.reader.Read [9, 1, 0] 9).err = none ∧
    binaryPropagator.Extract flag.standard wire.proto bytes.Buffer.reader 4
        (Carrier.supported [0, 0, 0, 9, 9, 1, 0]) =
      some (Except.ok ⟨⟨⟨0, 1⟩, 0, some 0, false, some false⟩, []⟩) := by
  decide

/-- Claim C5 (the code departs from it). The record that `Inject` builds has the Debug
bit set for every context, also when `Debug` is false: `flags` starts as `flag.Debug`
and the context's `Debug` field is never read. The second part evaluates the record of
a context with `Debug = false`. -/
theorem binaryPropagator.Inject.state_debug_bit_always_set :
    (∀ (F : flag.Masks) (sc : spanContextImpl),
      flag.isSet (binaryPropagator.Inject.state F sc).Flags F.Debug = true) ∧
    (binaryPropagator.Inject.state flag.standard
      ⟨⟨⟨0, 5⟩, 7, some 3, false, some false⟩, []⟩).Flags = 3 ∧
    flag.isSet (binaryPropagator.Inject.state flag.standard
      ⟨⟨⟨0, 5⟩, 7, some 3, false, some false⟩, []⟩).Flags flag.standard.Debug = true := by
  refine ⟨?_, by decide, by decide⟩
  intro F sc
  rw [flag.Masks.Debug, flag.isSet_bit, binaryPropagator.Inject.state_flags]
  simp

/-- Claim C6. In the flags of the record that `Inject` builds, the SamplingSet bit is
always set, the IsRoot bit is set exactly when ParentID is absent (and then
`ParentSpanId` is 0), the Sampled bit is set exactly when Sampled is set and true, and
the Sampled bit equals the record's `Sampled` field. -/
theorem binaryPropagator.Inject.state_decision_bits (F : flag.Masks) (hF : F.Distinct)
    (sc : spanContextImpl) :
    flag.isSet (binaryPropagator.Inject.state F sc).Flags F.SamplingSet = true ∧
    (flag.isSet (binaryPropagator.Inject.state F sc).Flags F.IsRoot = true ↔
      sc.SpanContext.ParentID = none) ∧
    (sc.SpanContext.ParentID = none →
      (binaryPropagator.Inject.state F sc).ParentSpanId = 0) ∧
    (flag.isSet (binaryPropagator.Inject.state F sc).Flags F.Sampled = true ↔
      sc.SpanContext.Sampled = some true) ∧
    flag.isSet (binaryPropagator.Inject.state F sc).Flags F.Sampled =
      (binaryPropagator.Inject.state F sc).Sampled := by
  obtain ⟨h1, h2, h3, h4, h5, h6⟩ := hF
  refine ⟨?_, ?_, ?_, ?_, ?_⟩
  · rw [flag.Masks.SamplingSet, flag.isSet_bit, binaryPropagator.Inject.state_flags]
    simp
  · rw [flag.Masks.IsRoot, flag.isSet_bit, binaryPropagator.Inject.state_flags]
    simp [h3, h5, h6, Option.isNone_iff_eq_none]
  · intro hp
    simp [binaryPropagator.Inject.state, hp]
  · rw [binaryPropagator.Inject.state_sampled_bit F ⟨h1, h2, h3, h4, h5, h6⟩]
    simp
  · rw [binaryPropagator.Inject.state_sampled_bit F ⟨h1, h2, h3, h4, h5, h6⟩]
    rfl

/-- Witness of C6: the standard masks and a root context sampled true. -/
theorem binaryPropagator.Inject.state_decision_bits_witness :
    flag.isSet (binaryPropagator.Inject.state flag.standard
      ⟨⟨⟨0, 5⟩, 7, none, false, some true⟩, []⟩).Flags flag.standard.SamplingSet = true ∧
    (flag.isSet (binaryPropagator.Inject.state flag.standard
      ⟨⟨⟨0, 5⟩, 7, none, false, some true⟩, []⟩).Flags flag.standard.IsRoot = true ↔
      (none : Option Nat) = none) ∧
    ((none : Option Nat) = none →
      (binaryPropagator.Inject.state flag.standard
        ⟨⟨⟨0, 5⟩, 7, none, false, some true⟩, []⟩).ParentSpanId = 0) ∧
    (flag.isSet (binaryPropagator.Inject.state flag.standard
      ⟨⟨⟨0, 5⟩, 7, none, false, some true⟩, []⟩).Flags flag.standard.Sampled = true ↔
      some true = some true) ∧
    flag.isSet (binaryPropagator.Inject.state flag.standard
      ⟨⟨⟨0, 5⟩, 7, none, false, some true⟩, []⟩).Flags flag.standard.Sampled =
      (binaryPropagator.Inject.state flag.standard
        ⟨⟨⟨0, 5⟩, 7, none, false, some true⟩, []⟩).Sampled :=
  binaryPropagator.Inject.state_decision_bits flag.standard (by decide)
    ⟨⟨⟨0, 5⟩, 7, none, false, some true⟩, []⟩

/-- Claim C7. Whenever the length is read, the body read reports no error and the
buffer deserializes to a record, `Extract` returns a context whose Sampled is set and
equals the record's `Sampled` field or-ed with the Sampled bit of its flags; a record
with the Sampled bit set therefore extracts to Sampled = true whatever its field is. -/
theorem binaryPropagator.Extract_sampled {σ : Type} (F : flag.Masks) (W : wire.Codec)
    (r : io.Reader σ) (fuel : Nat) (s s1 : σ) (L : Nat) (record : wire.TracerState)
    (hL : binary.Read r fuel s = some (Except.ok L, s1))
    (he : (r.Read s1 L).err = none)
    (hu : W.Unmarshal (io.fill L (r.Read s1 L).data) = Except.ok record) :
    ∃ ctx, binaryPropagator.Extract F W r fuel (Carrier.supported s) = some (Except.ok ctx) ∧
      ctx.SpanContext.Sampled = some (record.Sampled || flag.isSet record.Flags F.Sampled) ∧
      (flag.isSet record.Flags F.Sampled = true → ctx.SpanContext.Sampled = some true) := by
  refine ⟨binaryPropagator.Extract.context F record,
    binaryPropagator.Extract_of_record F W r fuel s s1 L record hL he hu, ?_, ?_⟩
  · cases hb : flag.isSet record.Flags F.Sampled <;>
      simp [binaryPropagator.Extract.context, hb]
  · intro hb
    simp [binaryPropagator.Extract.context, hb]

/-- Witness of C7: a `bytes.Buffer` with a record whose `sampled` field is absent (false)
and whose flags are 4, the Sampled bit alone: the context has Sampled = true. -/
theorem binaryPropagator.Extract_sampled_witness :
    ∃ ctx, binaryPropagator.Extract flag.standard wire.proto bytes.Buffer.reader 1
        (Carrier.supported [0, 0, 0, 10, 177, 1, 4, 0, 0, 0, 0, 0, 0, 0]) =
        some (Except.ok ctx) ∧
      ctx.SpanContext.Sampled = some (false || flag.isSet 4 flag.standard.Sampled) ∧
      (flag.isSet 4 flag.standard.Sampled = true → ctx.SpanContext.Sampled = some true) :=
  binaryPropagator.Extract_sampled flag.standard wire.proto bytes.Buffer.reader 1
    [0, 0, 0, 10, 177, 1, 4, 0, 0, 0, 0, 0, 0, 0] [177, 1, 4, 0, 0, 0, 0, 0, 0, 0] 10
    { wire.TracerState.zero with Flags := 4 } (by decide) (by decide) (by decide)

/-- Claim C8. Whenever the length is read, the body read reports no error and the
buffer deserializes to a record, `Extract` returns a context with TraceID = (High =
`TraceIdHigh`, Low = `TraceId`), SpanID = `SpanId`, baggage = `BaggageItems`, and a
ParentID that is always present with value `ParentSpanId` (0 for a root record). -/
theorem binaryPropagator.Extract_fields {σ : Type} (F : flag.Masks) (W : wire.Codec)
    (r : io.Reader σ) (fuel : Nat) (s s1 : σ) (L : Nat) (record : wire.TracerState)
    (hL : binary.Read r fuel s = some (Except.ok L, s1))
    (he : (r.Read s1 L).err = none)
    (hu : W.Unmarshal (io.fill L (r.Read s1 L).data) = Except.ok record) :
    ∃ ctx, binaryPropagator.Extract F W r fuel (Carrier.supported s) = some (Except.ok ctx) ∧
      ctx.SpanContext.TraceID = { High := record.TraceIdHigh, Low := record.TraceId } ∧
      ctx.SpanContext.ID = record.SpanId ∧
      ctx.baggage = record.BaggageItems ∧
      ctx.SpanContext.ParentID = some record.ParentSpanId :=
  ⟨binaryPropagator.Extract.context F record,
    binaryPropagator.Extract_of_record F W r fuel s s1 L record hL he hu, rfl, rfl, rfl, rfl⟩

/-- Witness of C8: a `bytes.Buffer` with a root record (trace id 5, span id 7, flags
11, no parent): the context has the parent 0. -/
theorem binaryPropagator.Extract_fields_witness :
    ∃ ctx, binaryPropagator.Extract flag.standard wire.proto bytes.Buffer.reader 1
        (Carrier.supported [0, 0, 0, 28, 9, 5, 0, 0, 0, 0, 0, 0, 0, 17, 7, 0, 0, 0, 0, 0,
          0, 0, 177, 1, 11, 0, 0, 0, 0, 0, 0, 0]) = some (Except.ok ctx) ∧
      ctx.SpanContext.TraceID = { High := 0, Low := 5 } ∧
      ctx.SpanContext.ID = 7 ∧
      ctx.baggage = [] ∧
      ctx.SpanContext.ParentID = some 0 :=
  binaryPropagator.Extract_fields flag.standard wire.proto bytes.Buffer.reader 1
    [0, 0, 0, 28, 9, 5, 0, 0, 0, 0, 0, 0, 0, 17, 7, 0, 0, 0, 0, 0, 0, 0, 177, 1, 11, 0, 0,
      0, 0, 0, 0, 0]
    [9, 5, 0, 0, 0, 0, 0, 0, 0, 17, 7, 0, 0, 0, 0, 0, 0, 0, 177, 1, 11, 0, 0, 0, 0, 0, 0, 0]
    28
    { wire.TracerState.zero with TraceId := 5, SpanId := 7, Flags := 11 }
    (by decide) (by decide) (by decide)

/-- Claim C9, as stated, fails: a `bytes.Buffer` with the record that has trace id 1 and
span id 0 is extracted without error, to a context whose TraceID is not empty and whose
SpanID is zero. -/
theorem binaryPropagator.Extract_trace_without_span :
    binaryPropagator.Extract flag.standard wire.proto bytes.Buffer.reader 4
        (Carrier.supported [0, 0, 0, 9, 9, 1, 0, 0, 0, 0, 0, 0, 0]) =
      some (Except.ok ⟨⟨⟨0, 1⟩, 0, some 0, false, some false⟩, []⟩) ∧
    (⟨0, 1⟩ : model.TraceID).Empty = false := by
  decide

/-- Claim C9 (amended). `Extract` checks nothing about the ids: whenever the length is
read, the body read reports no error and the buffer deserializes to a record, the
context it returns has the TraceID (High = `TraceIdHigh`, Low = `TraceId`) and the
SpanID (`SpanId`) of the record, so that it has an empty TraceID exactly when its SpanID
is zero if and only if the record has `TraceId = 0` and `TraceIdHigh = 0` exactly when
`SpanId = 0`. -/
theorem binaryPropagator.Extract_both_or_neither {σ : Type} (F : flag.Masks)
    (W : wire.Codec) (r : io.Reader σ) (fuel : Nat) (s s1 : σ) (L : Nat)
    (record : wire.TracerState)
    (hL : binary.Read r fuel s = some (Except.ok L, s1))
    (he : (r.Read s1 L).err = none)
    (hu : W.Unmarshal (io.fill L (r.Read s1 L).data) = Except.ok record) :
    ∃ ctx, binaryPropagator.Extract F W r fuel (Carrier.supported s) = some (Except.ok ctx) ∧
      ctx.SpanContext.TraceID = { High := record.TraceIdHigh, Low := record.TraceId } ∧
      ctx.SpanContext.ID = record.SpanId ∧
      ((ctx.SpanContext.TraceID.Empty = true ↔ ctx.SpanContext.ID = 0) ↔
        ((record.TraceId = 0 ∧ record.TraceIdHigh = 0) ↔ record.SpanId = 0)) := by
  refine ⟨binaryPropagator.Extract.context F record,
    binaryPropagator.Extract_of_record F W r fuel s s1 L record hL he hu, rfl, rfl, ?_⟩
  simp [binaryPropagator.Extract.context, model.TraceID.Empty]

/-- Witness of C9 (amended): a `bytes.Buffer` with the record that has span id 7 and no
trace id; the context has an empty TraceID and the SpanID 7. -/
theorem binaryPropagator.Extract_both_or_neither_witness :
    ∃ ctx, binaryPropagator.Extract flag.standard wire.proto bytes.Buffer.reader 1
        (Carrier.supported [0, 0, 0, 9, 17, 7, 0, 0, 0, 0, 0, 0, 0]) =
        some (Except.ok ctx) ∧
      ctx.SpanContext.TraceID = { High := 0, Low := 0 } ∧
      ctx.SpanContext.ID = 7 ∧
      ((ctx.SpanContext.TraceID.Empty = true ↔ ctx.SpanContext.ID = 0) ↔
        (((0 : Nat) = 0 ∧ (0 : Nat) = 0) ↔ (7 : Nat) = 0)) :=
  binaryPropagator.Extract_both_or_neither flag.standard wire.proto bytes.Buffer.reader 1
    [0, 0, 0, 9, 17, 7, 0, 0, 0, 0, 0, 0, 0]
    [17, 7, 0, 0, 0, 0, 0, 0, 0] 9
    { wire.TracerState.zero with SpanId := 7 }
    (by decide) (by decide) (by decide)

/-! ## Lemmas on the text codec -/

theorem recorder_foldl (f : String × String → String × String) (l : List (String × String))
    (c : List (String × String)) :
    l.foldl (fun c kv => recorder.Set c (f kv).1 (f kv).2) c = c ++ l.map f := by
  induction l generalizing c with
  | nil => simp
  | cons a l ih =>
    rw [List.foldl_cons, ih]
    simp [recorder]

theorem textMapPropagator.Inject.calls_eq (N : b3.Names) (sc : spanContextImpl) :
    textMapPropagator.Inject.calls N (ot.SpanContext.value sc) =
      textMapPropagator.Inject.samplingCalls N sc ++ textMapPropagator.Inject.idCalls N sc ++
        textMapPropagator.Inject.baggageCalls sc := by
  have hf := recorder_foldl (fun kv => (prefixBaggage ++ kv.1, kv.2)) sc.baggage
  simp only at hf
  simp only [textMapPropagator.Inject.calls, textMapPropagator.Inject, hf,
    textMapPropagator.Inject.samplingCalls, textMapPropagator.Inject.idCalls,
    textMapPropagator.Inject.baggageCalls]
  cases sc.SpanContext.Debug <;> rcases sc.SpanContext.Sampled with _ | _ | _ <;>
    cases (!sc.SpanContext.TraceID.Empty && decide (sc.SpanContext.ID > 0)) <;>
    cases sc.SpanContext.ParentID <;> simp [recorder]

theorem textMapPropagator.Inject_eq_foldl {σ : Type} (N : b3.Names) (w : ot.TextMapWriter σ)
    (sc : spanContextImpl) (c : σ) :
    textMapPropagator.Inject N w (ot.SpanContext.value sc) (Carrier.supported c) =
      (none, Carrier.supported
        ((textMapPropagator.Inject.calls N (ot.SpanContext.value sc)).foldl
          (fun c kv => w.Set c kv.1 kv.2) c)) := by
  rw [textMapPropagator.Inject.calls_eq]
  simp only [textMapPropagator.Inject, textMapPropagator.Inject.samplingCalls,
    textMapPropagator.Inject.idCalls, textMapPropagator.Inject.baggageCalls,
    List.foldl_append, List.foldl_map]
  cases sc.SpanContext.Debug <;> rcases sc.SpanContext.Sampled with _ | _ | _ <;>
    cases (!sc.SpanContext.TraceID.Empty && decide (sc.SpanContext.ID > 0)) <;>
    cases sc.SpanContext.ParentID <;> simp

theorem strings.HasPrefix_append (pre s : String) : strings.HasPrefix (pre ++ s) pre = true := by
  simp [strings.HasPrefix, String.data_append]

theorem textMapPropagator.Inject.baggageCalls_key (N : b3.Names) (hN : N.Distinct)
    (sc : spanContextImpl) (k v : String)
    (hk : k ∈ [N.TraceID, N.SpanID, N.ParentSpanID, N.Sampled, N.Flags]) :
    (k, v) ∉ textMapPropagator.Inject.baggageCalls sc := by
  intro hmem
  simp only [textMapPropagator.Inject.baggageCalls, List.mem_map, Prod.mk.injEq] at hmem
  obtain ⟨kv, _, hkey, _⟩ := hmem
  have h1 := hN.2 k hk
  rw [← hkey, strings.HasPrefix_append] at h1
  exact Bool.noConfusion h1

theorem textMapPropagator.Inject.idCalls_key (N : b3.Names) (sc : spanContextImpl)
    (k v : String) (h : (k, v) ∈ textMapPropagator.Inject.idCalls N sc) :
    k = N.TraceID ∨ k = N.SpanID ∨ k = N.ParentSpanID := by
  unfold textMapPropagator.Inject.idCalls at h
  split at h
  · cases hp : sc.SpanContext.ParentID <;> simp [hp] at h <;> tauto
  · simp at h

theorem b3.Names.Distinct.sampled_ne (N : b3.Names) (hN : N.Distinct) :
    N.Sampled ≠ N.TraceID ∧ N.Sampled ≠ N.SpanID ∧ N.Sampled ≠ N.ParentSpanID ∧
    N.Flags ≠ N.TraceID ∧ N.Flags ≠ N.SpanID ∧ N.Flags ≠ N.ParentSpanID ∧
    N.Sampled ≠ N.Flags := by
  have h := hN.1
  simp only [List.nodup_cons, List.mem_cons, List.mem_singleton, not_or, List.not_mem_nil,
    not_false_eq_true, List.nodup_nil, and_true] at h
  obtain ⟨⟨_, _, h1, h2⟩, ⟨_, h3, h4⟩, ⟨h5, h6⟩, h7⟩ := h
  exact ⟨Ne.symm h1, Ne.symm h3, Ne.symm h5, Ne.symm h2, Ne.symm h4, Ne.symm h6, h7⟩


/-! ## Lemmas on hexadecimal ids -/

theorem hex.digitValue_digit (d : Nat) (h : d < 16) : hex.digitValue (hex.digit d) = some d := by
  revert d
  decide

theorem hex.value_append (a b : List Char) (acc : Nat) :
    hex.value (a ++ b) acc = (hex.value a acc).bind (hex.value b) := by
  induction a generalizing acc with
  | nil => rfl
  | cons c cs ih =>
    simp only [List.cons_append, hex.value]
    cases hex.digitValue c with
    | none => rfl
    | some d => exact ih _

theorem hex.digits_length (width v : Nat) : (hex.digits width v).length = width := by
  induction width generalizing v with
  | zero => rfl
  | succ w ih => simp [hex.digits, ih]

theorem hex.value_digits (width v acc : Nat) :
    hex.value (hex.digits width v) acc = some (acc * 16 ^ width + v % 16 ^ width) := by
  induction width generalizing v with
  | zero => simp [hex.digits, hex.value, Nat.mod_one]
  | succ w ih =>
    rw [hex.digits, hex.value_append, ih]
    simp only [Option.some_bind, hex.value,
      hex.digitValue_digit (v % 16) (Nat.mod_lt _ (by decide))]
    have h := Nat.mod_mul (x := v) (a := 16) (b := 16 ^ w)
    rw [Nat.pow_succ, Nat.mul_comm (16 ^ w) 16, h]
    congr 1
    ring

theorem model.ID.FromHex_String_id (id : Nat) (h : id < 2 ^ 64) :
    model.ID.FromHex (model.ID.String id) = some id := by
  have h16 : id % 16 ^ 16 = id := Nat.mod_eq_of_lt (by simpa using h)
  have h1 : id < 18446744073709551616 := by simpa using h
  simp [model.ID.FromHex, model.ID.String, hex.digits_length, hex.value_digits, h1]

theorem model.TraceID.FromHex_String_trace (t : model.TraceID) (hh : t.High < 2 ^ 64)
    (hl : t.Low < 2 ^ 64) : model.TraceID.FromHex t.String = some t := by
  have hh16 : t.High % 16 ^ 16 = t.High := Nat.mod_eq_of_lt (by simpa using hh)
  have hl16 : t.Low % 16 ^ 16 = t.Low := Nat.mod_eq_of_lt (by simpa using hl)
  unfold model.TraceID.FromHex model.TraceID.String
  by_cases h0 : t.High = 0
  · cases t
    simp_all [hex.digits_length, hex.value_digits]
  · have htake : List.take 16 (hex.digits 16 t.High ++ hex.digits 16 t.Low)
        = hex.digits 16 t.High := by
      rw [List.take_append_of_le_length (by simp [hex.digits_length])]
      exact List.take_of_length_le (by simp [hex.digits_length])
    have hdrop : List.drop 16 (hex.digits 16 t.High ++ hex.digits 16 t.Low)
        = hex.digits 16 t.Low := by
      have := List.drop_left (hex.digits 16 t.High) (hex.digits 16 t.Low)
      rwa [hex.digits_length] at this
    simp only [h0, ↓reduceIte, List.length_append, hex.digits_length, Nat.reduceAdd,
      Nat.reduceEqDiff, htake, hdrop, hex.value_digits, Nat.zero_mul, Nat.zero_add, hh16, hl16]

theorem model.ID.String_id_ne_empty (id : Nat) : model.ID.String id ≠ "" := by
  intro h
  have := congrArg (fun s => s.data.length) h
  simp [model.ID.String, hex.digits_length] at this

theorem model.TraceID.String_trace_ne_empty (t : model.TraceID) : t.String ≠ "" := by
  intro h
  have := congrArg (fun s => s.data.length) h
  unfold model.TraceID.String at this
  split at this <;> simp [hex.digits_length] at this

/-! ## Lemmas on strings and maps -/

theorem strings.ToLower_append (lower : Char → Char) (a b : String) :
    strings.ToLower lower (a ++ b) = strings.ToLower lower a ++ strings.ToLower lower b := by
  apply String.ext
  simp [strings.ToLower, String.data_append]

theorem strings.TrimPrefix_append (pre s : String) : strings.TrimPrefix (pre ++ s) pre = s := by
  apply String.ext
  simp [strings.TrimPrefix, strings.HasPrefix_append, String.data_append]

theorem strings.append_left_cancel (pre a b : String) (h : pre ++ a = pre ++ b) : a = b := by
  have := congrArg String.data h
  simp only [String.data_append, List.append_cancel_left_eq] at this
  exact String.ext this

theorem mapGet_mapSet (m : List (String × String)) (k v k1 : String) :
    mapGet (mapSet m k v) k1 = if k1 = k then some v else mapGet m k1 := by
  induction m with
  | nil =>
    by_cases h : k1 = k
    · simp [mapSet, mapGet, h]
    · simp [mapSet, mapGet, h, Ne.symm h]
  | cons e m ih =>
    obtain ⟨a, b⟩ := e
    unfold mapGet at ih
    by_cases hak : a = k
    · by_cases h : k1 = k
      · simp [mapSet, mapGet, hak, h]
      · simp [mapSet, mapGet, hak, h, Ne.symm h, List.find?_cons]
    · by_cases ha1 : a = k1
      · have : k1 ≠ k := fun h => hak (ha1.trans h)
        simp [mapSet, mapGet, hak, ha1, this, List.find?_cons]
      · simp only [mapSet, hak, ↓reduceIte, mapGet, List.find?_cons, ha1, decide_False]
        exact ih

theorem mapSet_keys (m : List (String × String)) (k v : String) :
    (mapSet m k v).map Prod.fst =
      if k ∈ m.map Prod.fst then m.map Prod.fst else m.map Prod.fst ++ [k] := by
  induction m with
  | nil => simp [mapSet]
  | cons e m ih =>
    obtain ⟨a, b⟩ := e
    by_cases hak : a = k
    · simp [mapSet, hak]
    · simp only [mapSet, hak, ↓reduceIte, List.map_cons, ih, List.mem_cons, Ne.symm hak,
        false_or]
      split <;> simp

theorem mapSet_keys_nodup (m : List (String × String)) (k v : String)
    (h : (m.map Prod.fst).Nodup) : ((mapSet m k v).map Prod.fst).Nodup := by
  rw [mapSet_keys]
  split
  · exact h
  · rename_i hk
    exact List.Nodup.append h (List.nodup_singleton k) (by simpa using hk)

theorem mapSet_fresh (m : List (String × String)) (k v : String) (h : k ∉ m.map Prod.fst) :
    mapSet m k v = m ++ [(k, v)] := by
  induction m with
  | nil => rfl
  | cons e m ih =>
    obtain ⟨a, b⟩ := e
    simp only [List.map_cons, List.mem_cons, not_or] at h
    simp [mapSet, Ne.symm h.1, ih h.2]

theorem foldl_mapSet_fresh (l c : List (String × String))
    (h : ((c ++ l).map Prod.fst).Nodup) :
    l.foldl (fun c kv => mapSet c kv.1 kv.2) c = c ++ l := by
  induction l generalizing c with
  | nil => simp
  | cons e l ih =>
    have hfresh : e.1 ∉ c.map Prod.fst := by
      intro hmem
      rw [List.map_append, List.map_cons] at h
      have := (List.nodup_append.mp h).2.2
      exact this hmem (List.mem_cons_self _ _)
    rw [List.foldl_cons, mapSet_fresh c e.1 e.2 hfresh, ih]
    · simp
    · simpa using h

theorem mem_iff_mapGet (m : List (String × String)) (h : (m.map Prod.fst).Nodup)
    (k v : String) : (k, v) ∈ m ↔ mapGet m k = some v := by
  induction m with
  | nil => simp [mapGet]
  | cons e m ih =>
    obtain ⟨a, b⟩ := e
    simp only [List.map_cons, List.nodup_cons] at h
    have ih1 := ih h.2
    unfold mapGet at ih1
    by_cases hak : a = k
    · subst hak
      have hnot : (a, v) ∉ m := fun hm => h.1 (List.mem_map_of_mem Prod.fst hm)
      simp [mapGet, List.find?_cons, hnot]
      exact eq_comm
    · simp [mapGet, List.find?_cons, hak, Ne.symm hak]
      simpa [mapGet] using ih1

theorem strings.ToLower_id (s : String) : strings.ToLower (fun c => c) s = s := by
  apply String.ext
  simp [strings.ToLower]

theorem textMapPropagator.Extract.handler_lowerKeys (lower : Char → Char) (N : b3.Names)
    (l : List (String × String)) (vars : textMapPropagator.Extract.Vars) :
    l.foldl (textMapPropagator.Extract.handler lower N) vars =
      (lowerKeys lower l).foldl (textMapPropagator.Extract.handler (fun c => c) N) vars := by
  rw [lowerKeys, List.foldl_map]
  congr 1
  funext vars kv
  simp only [textMapPropagator.Extract.handler, strings.ToLower_id]

theorem b3.Names.Distinct.ne (N : b3.Names) (hN : N.Distinct) :
    N.TraceID ≠ N.SpanID ∧ N.TraceID ≠ N.ParentSpanID ∧ N.TraceID ≠ N.Sampled ∧
    N.TraceID ≠ N.Flags ∧ N.SpanID ≠ N.ParentSpanID ∧ N.SpanID ≠ N.Sampled ∧
    N.SpanID ≠ N.Flags ∧ N.ParentSpanID ≠ N.Sampled ∧ N.ParentSpanID ≠ N.Flags ∧
    N.Sampled ≠ N.Flags := by
  have h := hN.1
  simp only [List.nodup_cons, List.mem_cons, List.mem_singleton, not_or, List.not_mem_nil,
    not_false_eq_true, List.nodup_nil, and_true] at h
  obtain ⟨⟨h1, h2, h3, h4⟩, ⟨h5, h6, h7⟩, ⟨h8, h9⟩, h10⟩ := h
  exact ⟨h1, h2, h3, h4, h5, h6, h7, h8, h9, h10⟩

theorem b3.Names.Distinct.not_baggage (N : b3.Names) (hN : N.Distinct) (k : String) :
    prefixBaggage ++ k ≠ N.TraceID ∧ prefixBaggage ++ k ≠ N.SpanID ∧
    prefixBaggage ++ k ≠ N.ParentSpanID ∧ prefixBaggage ++ k ≠ N.Sampled ∧
    prefixBaggage ++ k ≠ N.Flags := by
  have h := hN.2
  have key : ∀ n ∈ [N.TraceID, N.SpanID, N.ParentSpanID, N.Sampled, N.Flags],
      prefixBaggage ++ k ≠ n := by
    intro n hn heq
    have h1 := h n hn
    rw [← heq, strings.HasPrefix_append] at h1
    exact Bool.noConfusion h1
  exact ⟨key _ (by simp), key _ (by simp), key _ (by simp), key _ (by simp), key _ (by simp)⟩

theorem strings.HasPrefix_eq_append (s pre : String) (h : strings.HasPrefix s pre = true) :
    s = pre ++ strings.TrimPrefix s pre := by
  apply String.ext
  have hp : pre.data <+: s.data := by
    simpa [strings.HasPrefix] using h
  obtain ⟨t, ht⟩ := hp
  simp [strings.TrimPrefix, h, String.data_append, ← ht]

theorem textMapPropagator.Extract.handler_headers (N : b3.Names) (hN : N.Distinct)
    (vars : textMapPropagator.Extract.Vars) (kv : String × String) :
    (textMapPropagator.Extract.handler (fun c => c) N vars kv).hdrTraceID =
      (if kv.1 = N.TraceID then kv.2 else vars.hdrTraceID) ∧
    (textMapPropagator.Extract.handler (fun c => c) N vars kv).hdrSpanID =
      (if kv.1 = N.SpanID then kv.2 else vars.hdrSpanID) ∧
    (textMapPropagator.Extract.handler (fun c => c) N vars kv).hdrParentSpanID =
      (if kv.1 = N.ParentSpanID then kv.2 else vars.hdrParentSpanID) ∧
    (textMapPropagator.Extract.handler (fun c => c) N vars kv).hdrSampled =
      (if kv.1 = N.Sampled then kv.2 else vars.hdrSampled) ∧
    (textMapPropagator.Extract.handler (fun c => c) N vars kv).hdrFlags =
      (if kv.1 = N.Flags then kv.2 else vars.hdrFlags) := by
  obtain ⟨h1, h2, h3, h4, h5, h6, h7, h8, h9, h10⟩ := b3.Names.Distinct.ne N hN
  simp only [textMapPropagator.Extract.handler, strings.ToLower_id]
  split_ifs <;> simp_all

theorem textMapPropagator.Extract.handler_baggage (N : b3.Names) (hN : N.Distinct)
    (vars : textMapPropagator.Extract.Vars) (kv : String × String) (k : String) :
    mapGet (textMapPropagator.Extract.handler (fun c => c) N vars kv).decodedBaggage k =
      if kv.1 = prefixBaggage ++ k then some kv.2 else mapGet vars.decodedBaggage k := by
  obtain ⟨h1, h2, h3, h4, h5⟩ := b3.Names.Distinct.not_baggage N hN k
  simp only [textMapPropagator.Extract.handler, strings.ToLower_id]
  by_cases hk : kv.1 = prefixBaggage ++ k
  · simp [hk, h1, h2, h3, h4, h5, strings.HasPrefix_append, strings.TrimPrefix_append,
      mapGet_mapSet]
  · simp only [hk, ↓reduceIte]
    split_ifs with a1 a2 a3 a4 a5 a6 <;> try rfl
    rw [mapGet_mapSet]
    have hne : k ≠ strings.TrimPrefix kv.1 prefixBaggage := by
      intro heq
      apply hk
      rw [heq]
      exact strings.HasPrefix_eq_append _ _ a6
    simp [hne]

theorem textMapPropagator.Extract.handler_keys_nodup (lower : Char → Char) (N : b3.Names)
    (l : List (String × String)) (vars : textMapPropagator.Extract.Vars)
    (h : (vars.decodedBaggage.map Prod.fst).Nodup) :
    ((l.foldl (textMapPropagator.Extract.handler lower N) vars).decodedBaggage.map
      Prod.fst).Nodup := by
  induction l generalizing vars with
  | nil => exact h
  | cons kv l ih =>
    apply ih
    simp only [textMapPropagator.Extract.handler]
    split_ifs <;> first | exact h | exact mapSet_keys_nodup _ _ _ h

theorem mapGet_cons (a : String × String) (l : List (String × String)) (k : String) :
    mapGet (a :: l) k = if a.1 = k then some a.2 else mapGet l k := by
  by_cases h : a.1 = k <;> simp [mapGet, List.find?_cons, h]

theorem mapGet_append (l1 l2 : List (String × String)) (k : String) :
    mapGet (l1 ++ l2) k = (mapGet l1 k).orElse (fun _ => mapGet l2 k) := by
  induction l1 with
  | nil => rfl
  | cons a l ih =>
    rw [List.cons_append, mapGet_cons, mapGet_cons, ih]
    split <;> rfl

theorem foldl_unique_key {γ β : Type} (step : γ → String × String → γ) (proj : γ → β)
    (inj : String → β) (key : String)
    (hstep : ∀ g a, proj (step g a) = if a.1 = key then inj a.2 else proj g)
    (l : List (String × String)) (hl : (l.map Prod.fst).Nodup) (g0 : γ) :
    proj (l.foldl step g0) = (mapGet l key).elim (proj g0) inj := by
  induction l generalizing g0 with
  | nil => simp [mapGet]
  | cons a l ih =>
    simp only [List.map_cons, List.nodup_cons] at hl
    rw [List.foldl_cons, ih hl.2, hstep, mapGet_cons]
    by_cases hk : a.1 = key
    · have hnone : mapGet l key = none := by
        cases hget : mapGet l key with
        | none => rfl
        | some v =>
          have hmem := (mem_iff_mapGet l hl.2 key v).mpr hget
          exact absurd (List.mem_map_of_mem Prod.fst hmem) (hk ▸ hl.1)
      simp [hnone, hk]
    · simp [hk]

theorem mapGet_perm (l1 l2 : List (String × String)) (hp : l1.Perm l2)
    (h2 : (l2.map Prod.fst).Nodup) (k : String) : mapGet l1 k = mapGet l2 k := by
  have h1 : (l1.map Prod.fst).Nodup := ((hp.map Prod.fst).nodup_iff).mpr h2
  apply Option.ext
  intro v
  rw [Option.mem_def, Option.mem_def, ← mem_iff_mapGet l1 h1, ← mem_iff_mapGet l2 h2]
  exact hp.mem_iff

theorem textMapPropagator.Inject.samplingCalls_key (N : b3.Names) (sc : spanContextImpl)
    (k v : String) (h : (k, v) ∈ textMapPropagator.Inject.samplingCalls N sc) :
    k = N.Sampled ∨ k = N.Flags := by
  unfold textMapPropagator.Inject.samplingCalls at h
  cases hd : sc.SpanContext.Debug <;> rcases hs : sc.SpanContext.Sampled with _ | _ | _ <;>
    simp [hd, hs] at h <;> tauto

theorem textMapPropagator.Inject.lowerKeys_calls (lower : Char → Char) (N : b3.Names)
    (hNl : N.Lowered lower)
    (hpre : strings.ToLower lower prefixBaggage = prefixBaggage) (sc : spanContextImpl) :
    lowerKeys lower (textMapPropagator.Inject.calls N (ot.SpanContext.value sc)) =
      textMapPropagator.Inject.samplingCalls N sc ++ textMapPropagator.Inject.idCalls N sc ++
        sc.baggage.map (fun kv => (prefixBaggage ++ strings.ToLower lower kv.1, kv.2)) := by
  have hfix : ∀ l : List (String × String),
      (∀ p ∈ l, p.1 ∈ [N.TraceID, N.SpanID, N.ParentSpanID, N.Sampled, N.Flags]) →
      lowerKeys lower l = l := by
    intro l hl
    unfold lowerKeys
    conv_rhs => rw [← List.map_id l]
    apply List.map_congr_left
    intro p hp
    rw [hNl p.1 (hl p hp)]
    rfl
  rw [textMapPropagator.Inject.calls_eq]
  unfold lowerKeys
  rw [List.map_append, List.map_append]
  congr 1
  · congr 1
    · apply hfix
      intro p hp
      rcases textMapPropagator.Inject.samplingCalls_key N sc p.1 p.2 hp with h | h <;>
        simp [h]
    · apply hfix
      intro p hp
      rcases textMapPropagator.Inject.idCalls_key N sc p.1 p.2 hp with h | h | h <;>
        simp [h]
  · simp [textMapPropagator.Inject.baggageCalls, strings.ToLower_append, hpre]

theorem textMapPropagator.Inject.header_keys_nodup (N : b3.Names) (hN : N.Distinct)
    (sc : spanContextImpl) :
    ((textMapPropagator.Inject.samplingCalls N sc ++
      textMapPropagator.Inject.idCalls N sc).map Prod.fst).Nodup := by
  obtain ⟨h1, h2, h3, h4, h5, h6, h7, h8, h9, h10⟩ := b3.Names.Distinct.ne N hN
  unfold textMapPropagator.Inject.samplingCalls textMapPropagator.Inject.idCalls
  cases sc.SpanContext.Debug <;> rcases sc.SpanContext.Sampled with _ | _ | _ <;>
    cases (!sc.SpanContext.TraceID.Empty && decide (sc.SpanContext.ID > 0)) <;>
    cases sc.SpanContext.ParentID <;>
    simp [h1, h2, h3, h4, h5, h6, h7, h8, h9, h10, Ne.symm h3, Ne.symm h4, Ne.symm h6,
      Ne.symm h7, Ne.symm h8, Ne.symm h9]

theorem textMapPropagator.Inject.lowered_keys_nodup (lower : Char → Char) (N : b3.Names)
    (hN : N.Distinct) (sc : spanContextImpl)
    (hkeys : (sc.baggage.map (fun kv => strings.ToLower lower kv.1)).Nodup) :
    ((textMapPropagator.Inject.samplingCalls N sc ++ textMapPropagator.Inject.idCalls N sc ++
      sc.baggage.map (fun kv => (prefixBaggage ++ strings.ToLower lower kv.1, kv.2))).map
        Prod.fst).Nodup := by
  rw [List.map_append]
  refine List.Nodup.append (textMapPropagator.Inject.header_keys_nodup N hN sc) ?_ ?_
  · rw [List.map_map]
    have hinj : Function.Injective (fun s : String => prefixBaggage ++ s) :=
      fun a b h => strings.append_left_cancel _ _ _ h
    have := List.Nodup.map hinj hkeys
    rwa [List.map_map] at this
  · intro k hk1 hk2
    obtain ⟨h1, h2, h3, h4, h5⟩ : k ≠ N.TraceID ∧ k ≠ N.SpanID ∧ k ≠ N.ParentSpanID ∧
        k ≠ N.Sampled ∧ k ≠ N.Flags := by
      simp only [List.map_map, List.mem_map, Function.comp_apply] at hk2
      obtain ⟨kv, _, rfl⟩ := hk2
      exact b3.Names.Distinct.not_baggage N hN _
    simp only [List.map_append, List.mem_append, List.mem_map] at hk1
    rcases hk1 with ⟨p, hp, rfl⟩ | ⟨p, hp, rfl⟩
    · rcases textMapPropagator.Inject.samplingCalls_key N sc p.1 p.2 hp with h | h <;>
        contradiction
    · rcases textMapPropagator.Inject.idCalls_key N sc p.1 p.2 hp with h | h | h <;>
        contradiction

theorem mapGet_eq_none (l : List (String × String)) (k : String)
    (h : k ∉ l.map Prod.fst) : mapGet l k = none := by
  induction l with
  | nil => rfl
  | cons a l ih =>
    simp only [List.map_cons, List.mem_cons, not_or] at h
    rw [mapGet_cons, if_neg (Ne.symm h.1), ih h.2]

theorem textMapPropagator.Inject.lookup_headers (N : b3.Names)
    (hN : N.Distinct) (sc : spanContextImpl)
    (htrace : sc.SpanContext.TraceID.Empty = false) (hid : 0 < sc.SpanContext.ID)
    (B : List (String × String))
    (hB : ∀ p ∈ B, ∃ k, p.1 = prefixBaggage ++ k) :
    mapGet (textMapPropagator.Inject.samplingCalls N sc ++
        textMapPropagator.Inject.idCalls N sc ++ B) N.TraceID =
      some sc.SpanContext.TraceID.String ∧
    mapGet (textMapPropagator.Inject.samplingCalls N sc ++
        textMapPropagator.Inject.idCalls N sc ++ B) N.SpanID =
      some (model.ID.String sc.SpanContext.ID) ∧
    mapGet (textMapPropagator.Inject.samplingCalls N sc ++
        textMapPropagator.Inject.idCalls N sc ++ B) N.ParentSpanID =
      sc.SpanContext.ParentID.map model.ID.String ∧
    mapGet (textMapPropagator.Inject.samplingCalls N sc ++
        textMapPropagator.Inject.idCalls N sc ++ B) N.Sampled =
      (if sc.SpanContext.Debug then none
        else sc.SpanContext.Sampled.map (fun b => if b then "1" else "0")) ∧
    mapGet (textMapPropagator.Inject.samplingCalls N sc ++
        textMapPropagator.Inject.idCalls N sc ++ B) N.Flags =
      (if sc.SpanContext.Debug then some "1" else none) := by
  obtain ⟨h1, h2, h3, h4, h5, h6, h7, h8, h9, h10⟩ := b3.Names.Distinct.ne N hN
  have hnone : ∀ n ∈ [N.TraceID, N.SpanID, N.ParentSpanID, N.Sampled, N.Flags],
      mapGet B n = none := by
    intro n hn
    apply mapGet_eq_none
    intro hmem
    obtain ⟨p, hp, hpn⟩ := List.mem_map.mp hmem
    obtain ⟨k, hk⟩ := hB p hp
    have hpre := hN.2 n hn
    rw [← hpn, hk, strings.HasPrefix_append] at hpre
    exact Bool.noConfusion hpre
  have hcond : (!sc.SpanContext.TraceID.Empty && decide (sc.SpanContext.ID > 0)) = true := by
    simp [htrace, hid]
  simp only [mapGet_append, hnone _ (List.mem_cons_self _ _),
    hnone N.SpanID (by simp), hnone N.ParentSpanID (by simp), hnone N.Sampled (by simp),
    hnone N.Flags (by simp), textMapPropagator.Inject.samplingCalls,
    textMapPropagator.Inject.idCalls, hcond, ↓reduceIte]
  cases sc.SpanContext.Debug <;> rcases sc.SpanContext.Sampled with _ | _ | _ <;>
    cases sc.SpanContext.ParentID <;>
    simp [mapGet_cons, mapGet, h1, h2, h3, h4, h5, h6, h7, h8, h9, h10, Ne.symm h1,
      Ne.symm h2, Ne.symm h3, Ne.symm h4, Ne.symm h5, Ne.symm h6, Ne.symm h7, Ne.symm h8,
      Ne.symm h9, Ne.symm h10]

theorem textMapPropagator.Inject.lookup_baggage (lower : Char → Char) (N : b3.Names)
    (hN : N.Distinct) (sc : spanContextImpl) (k : String) :
    mapGet (textMapPropagator.Inject.samplingCalls N sc ++
        textMapPropagator.Inject.idCalls N sc ++
        sc.baggage.map (fun kv => (prefixBaggage ++ strings.ToLower lower kv.1, kv.2)))
      (prefixBaggage ++ k) = mapGet (lowerKeys lower sc.baggage) k := by
  obtain ⟨h1, h2, h3, h4, h5⟩ := b3.Names.Distinct.not_baggage N hN k
  have hhead : mapGet (textMapPropagator.Inject.samplingCalls N sc ++
      textMapPropagator.Inject.idCalls N sc) (prefixBaggage ++ k) = none := by
    apply mapGet_eq_none
    intro hmem
    obtain ⟨p, hp, hpk⟩ := List.mem_map.mp hmem
    rcases List.mem_append.mp hp with hp | hp
    · rcases textMapPropagator.Inject.samplingCalls_key N sc p.1 p.2 hp with h | h
      · exact h4 (hpk.symm.trans h)
      · exact h5 (hpk.symm.trans h)
    · rcases textMapPropagator.Inject.idCalls_key N sc p.1 p.2 hp with h | h | h
      · exact h1 (hpk.symm.trans h)
      · exact h2 (hpk.symm.trans h)
      · exact h3 (hpk.symm.trans h)
  rw [mapGet_append, hhead]
  simp only [Option.orElse]
  unfold lowerKeys
  induction sc.baggage with
  | nil => rfl
  | cons a l ih =>
    rw [List.map_cons, List.map_cons, mapGet_cons, mapGet_cons, ih]
    by_cases hk : strings.ToLower lower a.1 = k
    · simp [hk]
    · have : prefixBaggage ++ strings.ToLower lower a.1 ≠ prefixBaggage ++ k :=
        fun h => hk (strings.append_left_cancel _ _ _ h)
      simp [hk, this]

theorem b3.ParseHeaders_of_context (c : model.SpanContext) (hr : c.InRange) :
    b3.ParseHeaders c.TraceID.String (model.ID.String c.ID)
        ((c.ParentID.map model.ID.String).elim "" (fun s => s))
        ((if c.Debug then none
            else c.Sampled.map (fun b => if b then "1" else "0")).elim "" (fun s => s))
        ((if c.Debug then some "1" else none).elim "" (fun s => s)) =
      Except.ok { c with Sampled := c.resolvedSampled } := by
  obtain ⟨hh, hl, hi, hp⟩ := hr
  have ht := model.TraceID.FromHex_String_trace c.TraceID hh hl
  have hid := model.ID.FromHex_String_id c.ID hi
  have hne1 := model.TraceID.String_trace_ne_empty c.TraceID
  have hne2 := model.ID.String_id_ne_empty c.ID
  unfold b3.ParseHeaders model.SpanContext.resolvedSampled
  simp only [hne1, hne2, false_and, or_self, ↓reduceIte, ht, hid]
  rcases hpar : c.ParentID with _ | p
  · cases c.Debug <;> rcases c.Sampled with _ | _ | _ <;> simp
  · have hpid := model.ID.FromHex_String_id p (hp p (by simp [hpar]))
    have hne3 := model.ID.String_id_ne_empty p
    cases c.Debug <;> rcases c.Sampled with _ | _ | _ <;> simp [hne3, hpid]

/-! ## Text codec: the claims -/

/-- Claim C10. Of the Set calls of one text `Inject`: with Debug true, the flags header is
set to `1` (and to nothing else) and no sampled header is set, whatever Sampled is; with
Debug false and Sampled set, the sampled header is set to `1` for true or `0` for false
(and to nothing else) and no flags header is set; with Debug false and Sampled unset,
neither header is set. -/
theorem textMapPropagator.Inject_sampling_headers (N : b3.Names) (hN : N.Distinct)
    (sc : spanContextImpl) :
    (sc.SpanContext.Debug = true →
      (N.Flags, "1") ∈ textMapPropagator.Inject.calls N (ot.SpanContext.value sc) ∧
      (∀ v, (N.Flags, v) ∈ textMapPropagator.Inject.calls N (ot.SpanContext.value sc) →
        v = "1") ∧
      ∀ v, (N.Sampled, v) ∉ textMapPropagator.Inject.calls N (ot.SpanContext.value sc)) ∧
    (∀ b, sc.SpanContext.Debug = false → sc.SpanContext.Sampled = some b →
      (N.Sampled, if b then "1" else "0") ∈
        textMapPropagator.Inject.calls N (ot.SpanContext.value sc) ∧
      (∀ v, (N.Sampled, v) ∈ textMapPropagator.Inject.calls N (ot.SpanContext.value sc) →
        v = if b then "1" else "0") ∧
      ∀ v, (N.Flags, v) ∉ textMapPropagator.Inject.calls N (ot.SpanContext.value sc)) ∧
    (sc.SpanContext.Debug = false → sc.SpanContext.Sampled = none →
      ∀ v, (N.Sampled, v) ∉ textMapPropagator.Inject.calls N (ot.SpanContext.value sc) ∧
        (N.Flags, v) ∉ textMapPropagator.Inject.calls N (ot.SpanContext.value sc)) := by
  obtain ⟨h1, h2, h3, h4, h5, h6, h7⟩ := b3.Names.Distinct.sampled_ne N hN
  have hbS : ∀ v, (N.Sampled, v) ∉ textMapPropagator.Inject.baggageCalls sc := fun v =>
    textMapPropagator.Inject.baggageCalls_key N hN sc _ v (by simp)
  have hbF : ∀ v, (N.Flags, v) ∉ textMapPropagator.Inject.baggageCalls sc := fun v =>
    textMapPropagator.Inject.baggageCalls_key N hN sc _ v (by simp)
  have hiS : ∀ v, (N.Sampled, v) ∉ textMapPropagator.Inject.idCalls N sc := fun v h => by
    rcases textMapPropagator.Inject.idCalls_key N sc _ v h with h | h | h <;> contradiction
  have hiF : ∀ v, (N.Flags, v) ∉ textMapPropagator.Inject.idCalls N sc := fun v h => by
    rcases textMapPropagator.Inject.idCalls_key N sc _ v h with h | h | h <;> contradiction
  rw [textMapPropagator.Inject.calls_eq]
  simp only [List.mem_append, hbS, hbF, hiS, hiF, or_false]
  refine ⟨?_, ?_, ?_⟩
  · intro hd
    simp [textMapPropagator.Inject.samplingCalls, hd, h7]
  · intro b hd hs
    cases b <;> simp [textMapPropagator.Inject.samplingCalls, hd, hs, Ne.symm h7]
  · intro hd hs v
    simp [textMapPropagator.Inject.samplingCalls, hd, hs]

/-- Witness of C10: the header names of package `b3` and a context with Debug true and
Sampled false. -/
theorem textMapPropagator.Inject_sampling_headers_witness :
    textMapPropagator.Inject.calls b3.names
        (ot.SpanContext.value ⟨⟨⟨0, 5⟩, 7, some 3, true, some false⟩, [("k", "v")]⟩) =
      [("x-b3-flags", "1"), ("x-b3-traceid", "0000000000000005"),
        ("x-b3-spanid", "0000000000000007"), ("x-b3-parentspanid", "0000000000000003"),
        ("ot-baggage-k", "v")] ∧
    ∀ v, ("x-b3-sampled", v) ∉ textMapPropagator.Inject.calls b3.names
        (ot.SpanContext.value ⟨⟨⟨0, 5⟩, 7, some 3, true, some false⟩, [("k", "v")]⟩) :=
  ⟨by decide,
    ((textMapPropagator.Inject_sampling_headers b3.names (by decide)
      ⟨⟨⟨0, 5⟩, 7, some 3, true, some false⟩, [("k", "v")]⟩).1 rfl).2.2⟩

/-- Claim C2, as stated, fails: the baggage key `Foo` comes back from the text round trip
through an `ot.TextMapCarrier` as `foo`, so the baggage pairs are not those of the
injected context. -/
theorem textMapPropagator.roundTrip_lowers_baggage_keys :
    textMapPropagator.roundTrip Char.toLower b3.names ot.TextMapCarrier.reader
        ⟨⟨⟨0, 5⟩, 7, some 3, false, some true⟩, [("Foo", "b")]⟩ =
      Except.ok ⟨⟨⟨0, 5⟩, 7, some 3, false, some true⟩, [("foo", "b")]⟩ ∧
    ("Foo", "b") ∉ [("foo", "b")] := by
  decide

/-- Claim C2 (amended). For header names that are distinct and in lower case, a context
with a non-empty TraceID and a non-zero SpanID whose baggage keys stay distinct after
lower-casing, and a reader that yields the entries of the map in any order: `Extract`
applied to the `ot.TextMapCarrier` that `Inject` filled succeeds and returns a context
with the same TraceID, SpanID and ParentID, the same resolved Sampled value, and as
baggage exactly the pairs of the injected context with every key lower-cased. -/
theorem textMapPropagator.roundTrip_text_fields (lower : Char → Char) (N : b3.Names)
    (r : ot.TextMapReader (List (String × String))) (sc : spanContextImpl)
    (hN : N.Distinct) (hNl : N.Lowered lower)
    (hpre : strings.ToLower lower prefixBaggage = prefixBaggage)
    (hr : ∀ c, (r.ForeachKey c).Perm c)
    (htrace : sc.SpanContext.TraceID.Empty = false) (hid : 0 < sc.SpanContext.ID)
    (hrange : sc.SpanContext.InRange)
    (hkeys : (sc.baggage.map (fun kv => strings.ToLower lower kv.1)).Nodup) :
    ∃ ctx, textMapPropagator.roundTrip lower N r sc = Except.ok ctx ∧
      ctx.SpanContext.TraceID = sc.SpanContext.TraceID ∧
      ctx.SpanContext.ID = sc.SpanContext.ID ∧
      ctx.SpanContext.ParentID = sc.SpanContext.ParentID ∧
      ctx.SpanContext.resolvedSampled = sc.SpanContext.resolvedSampled ∧
      ∀ k v, (k, v) ∈ ctx.baggage ↔
        ∃ k0, (k0, v) ∈ sc.baggage ∧ strings.ToLower lower k0 = k := by
  -- the carrier after `Inject` holds the calls, one entry per call
  have hlow := textMapPropagator.Inject.lowerKeys_calls lower N hNl hpre sc
  have hnd := textMapPropagator.Inject.lowered_keys_nodup lower N hN sc hkeys
  have hraw : ((textMapPropagator.Inject.calls N (ot.SpanContext.value sc)).map
      Prod.fst).Nodup := by
    have h := hnd
    rw [← hlow, lowerKeys, List.map_map] at h
    have h2 : (Prod.fst ∘ fun kv : String × String => (strings.ToLower lower kv.1, kv.2))
        = strings.ToLower lower ∘ Prod.fst := rfl
    rw [h2, ← List.map_map] at h
    exact List.Nodup.of_map _ h
  have hcarrier : (textMapPropagator.Inject N ot.TextMapCarrier.writer
      (ot.SpanContext.value sc) (Carrier.supported [])).2 =
      Carrier.supported (textMapPropagator.Inject.calls N (ot.SpanContext.value sc)) := by
    rw [textMapPropagator.Inject_eq_foldl]
    show Carrier.supported ((textMapPropagator.Inject.calls N (ot.SpanContext.value sc)).foldl
      (fun c kv => mapSet c kv.1 kv.2) []) = _
    rw [foldl_mapSet_fresh _ [] (by simpa using hraw), List.nil_append]
  -- what the handler collects from the pairs, in whatever order they come
  have hperm : (lowerKeys lower (r.ForeachKey
      (textMapPropagator.Inject.calls N (ot.SpanContext.value sc)))).Perm
      (textMapPropagator.Inject.samplingCalls N sc ++ textMapPropagator.Inject.idCalls N sc ++
        sc.baggage.map (fun kv => (prefixBaggage ++ strings.ToLower lower kv.1, kv.2))) := by
    rw [← hlow]
    exact (hr _).map _
  have hnd1 := ((hperm.map Prod.fst).nodup_iff).mpr hnd
  have hget := fun k => mapGet_perm _ _ hperm hnd k
  obtain ⟨g1, g2, g3, g4, g5⟩ := textMapPropagator.Inject.lookup_headers N hN sc htrace hid
    (sc.baggage.map (fun kv => (prefixBaggage ++ strings.ToLower lower kv.1, kv.2)))
    (by
      intro p hp
      obtain ⟨kv, _, rfl⟩ := List.mem_map.mp hp
      exact ⟨_, rfl⟩)
  have hstep := textMapPropagator.Extract.handler_headers N hN
  have v1 := foldl_unique_key (textMapPropagator.Extract.handler (fun c => c) N)
    (fun g => g.hdrTraceID) (fun s => s) N.TraceID (fun g a => (hstep g a).1) _ hnd1
    textMapPropagator.Extract.init
  have v2 := foldl_unique_key (textMapPropagator.Extract.handler (fun c => c) N)
    (fun g => g.hdrSpanID) (fun s => s) N.SpanID (fun g a => (hstep g a).2.1) _ hnd1
    textMapPropagator.Extract.init
  have v3 := foldl_unique_key (textMapPropagator.Extract.handler (fun c => c) N)
    (fun g => g.hdrParentSpanID) (fun s => s) N.ParentSpanID (fun g a => (hstep g a).2.2.1)
    _ hnd1 textMapPropagator.Extract.init
  have v4 := foldl_unique_key (textMapPropagator.Extract.handler (fun c => c) N)
    (fun g => g.hdrSampled) (fun s => s) N.Sampled (fun g a => (hstep g a).2.2.2.1) _ hnd1
    textMapPropagator.Extract.init
  have v5 := foldl_unique_key (textMapPropagator.Extract.handler (fun c => c) N)
    (fun g => g.hdrFlags) (fun s => s) N.Flags (fun g a => (hstep g a).2.2.2.2) _ hnd1
    textMapPropagator.Extract.init
  have vb := fun k => foldl_unique_key (textMapPropagator.Extract.handler (fun c => c) N)
    (fun g => mapGet g.decodedBaggage k) (fun s => some s) (prefixBaggage ++ k)
    (fun g a => textMapPropagator.Extract.handler_baggage N hN g a k) _ hnd1
    textMapPropagator.Extract.init
  have e1 : textMapPropagator.Extract.init.hdrTraceID = "" := rfl
  have e2 : textMapPropagator.Extract.init.hdrSpanID = "" := rfl
  have e3 : textMapPropagator.Extract.init.hdrParentSpanID = "" := rfl
  have e4 : textMapPropagator.Extract.init.hdrSampled = "" := rfl
  have e5 : textMapPropagator.Extract.init.hdrFlags = "" := rfl
  simp only [hget, g1, g2, g3, g4, g5, e1, e2, e3, e4, e5, Option.elim_some] at v1 v2 v3 v4 v5
  have hparse := b3.ParseHeaders_of_context sc.SpanContext hrange
  refine ⟨{ SpanContext := { sc.SpanContext with Sampled := sc.SpanContext.resolvedSampled },
            baggage := ((r.ForeachKey (textMapPropagator.Inject.calls N
              (ot.SpanContext.value sc))).foldl
              (textMapPropagator.Extract.handler lower N)
              textMapPropagator.Extract.init).decodedBaggage }, ?_, rfl, rfl, rfl, ?_, ?_⟩
  · rw [textMapPropagator.roundTrip, hcarrier]
    simp only [textMapPropagator.Extract]
    rw [textMapPropagator.Extract.handler_lowerKeys]
    simp only [v1, v2, v3, v4, v5, hparse]
  · simp only [model.SpanContext.resolvedSampled]
    cases sc.SpanContext.Debug <;> simp
  · intro k v
    have hkn := textMapPropagator.Extract.handler_keys_nodup lower N
      (r.ForeachKey (textMapPropagator.Inject.calls N (ot.SpanContext.value sc)))
      textMapPropagator.Extract.init (by simp [textMapPropagator.Extract.init])
    have hkl : ((lowerKeys lower sc.baggage).map Prod.fst).Nodup := by
      simpa [lowerKeys, List.map_map, Function.comp_def] using hkeys
    have hvb := vb k
    simp only [hget, textMapPropagator.Inject.lookup_baggage lower N hN sc k] at hvb
    rw [mem_iff_mapGet _ hkn, textMapPropagator.Extract.handler_lowerKeys]
    have hfinal : mapGet ((lowerKeys lower (r.ForeachKey (textMapPropagator.Inject.calls N
        (ot.SpanContext.value sc)))).foldl (textMapPropagator.Extract.handler (fun c => c) N)
        textMapPropagator.Extract.init).decodedBaggage k = mapGet (lowerKeys lower sc.baggage) k := by
      rw [hvb]
      cases mapGet (lowerKeys lower sc.baggage) k <;> rfl
    rw [hfinal, ← mem_iff_mapGet _ hkl]
    simp only [lowerKeys, List.mem_map, Prod.mk.injEq]
    constructor
    · rintro ⟨a, ha, h1, h2⟩
      exact ⟨a.1, by rw [← h2]; exact ha, h1⟩
    · rintro ⟨k0, hk0, h1⟩
      exact ⟨(k0, v), hk0, h1, rfl⟩

/-- Witness of C2 (amended): the header names of package `b3`, ASCII lower-casing, a
reader that yields the entries of the map in reverse order, and a context with the
baggage keys `foo` and `Bar`. -/
theorem textMapPropagator.roundTrip_text_fields_witness :
    ∃ ctx, textMapPropagator.roundTrip Char.toLower b3.names { ForeachKey := List.reverse }
        ⟨⟨⟨1, 5⟩, 7, some 3, true, some false⟩, [("foo", "b"), ("Bar", "c")]⟩ =
        Except.ok ctx ∧
      ctx.SpanContext.TraceID = ⟨1, 5⟩ ∧
      ctx.SpanContext.ID = 7 ∧
      ctx.SpanContext.ParentID = some 3 ∧
      ctx.SpanContext.resolvedSampled = some true ∧
      ∀ k v, (k, v) ∈ ctx.baggage ↔
        ∃ k0, (k0, v) ∈ [("foo", "b"), ("Bar", "c")] ∧ strings.ToLower Char.toLower k0 = k :=
  textMapPropagator.roundTrip_text_fields Char.toLower b3.names { ForeachKey := List.reverse }
    ⟨⟨⟨1, 5⟩, 7, some 3, true, some false⟩, [("foo", "b"), ("Bar", "c")]⟩
    (by decide) (by decide) (by decide) (fun c => List.reverse_perm c) (by decide)
    (by decide) (by decide) (by decide)

/-! ## Text codec: identity headers, baggage headers, boundary checks -/

/-- Claim C11. Of the Set calls of one text `Inject`: the traceId header is set, to
`TraceID.String()`, exactly when the TraceID is not empty and the SpanID is not zero;
so is the spanId header, to `ID.String()`; the parentSpanId header is set, to the
parent's `String()`, exactly when in addition ParentID is present. When the TraceID is
empty or the SpanID is zero none of the three is set, whatever ParentID is. -/
theorem textMapPropagator.Inject_identity_headers (N : b3.Names) (hN : N.Distinct)
    (sc : spanContextImpl) :
    (∀ v, (N.TraceID, v) ∈ textMapPropagator.Inject.calls N (ot.SpanContext.value sc) ↔
      (sc.SpanContext.TraceID.Empty = false ∧ 0 < sc.SpanContext.ID ∧
        v = sc.SpanContext.TraceID.String)) ∧
    (∀ v, (N.SpanID, v) ∈ textMapPropagator.Inject.calls N (ot.SpanContext.value sc) ↔
      (sc.SpanContext.TraceID.Empty = false ∧ 0 < sc.SpanContext.ID ∧
        v = model.ID.String sc.SpanContext.ID)) ∧
    (∀ v, (N.ParentSpanID, v) ∈ textMapPropagator.Inject.calls N (ot.SpanContext.value sc) ↔
      (sc.SpanContext.TraceID.Empty = false ∧ 0 < sc.SpanContext.ID ∧
        ∃ p, sc.SpanContext.ParentID = some p ∧ v = model.ID.String p)) := by
  obtain ⟨h1, h2, h3, h4, h5, h6, h7, h8, h9, h10⟩ := b3.Names.Distinct.ne N hN
  have hB : ∀ k ∈ [N.TraceID, N.SpanID, N.ParentSpanID], ∀ v,
      (k, v) ∉ textMapPropagator.Inject.baggageCalls sc := fun k hk v =>
    textMapPropagator.Inject.baggageCalls_key N hN sc k v (by
      simp only [List.mem_cons, List.mem_singleton, List.not_mem_nil, or_false] at hk ⊢
      tauto)
  have hS : ∀ k ∈ [N.TraceID, N.SpanID, N.ParentSpanID], ∀ v,
      (k, v) ∉ textMapPropagator.Inject.samplingCalls N sc := by
    intro k hk v hmem
    simp only [List.mem_cons, List.mem_singleton, List.not_mem_nil, or_false] at hk
    rcases textMapPropagator.Inject.samplingCalls_key N sc k v hmem with h | h <;>
      rcases hk with hk | hk | hk <;> rw [hk] at h <;> contradiction
  rw [textMapPropagator.Inject.calls_eq]
  simp only [List.mem_append, hB _ (List.mem_cons_self _ _), hB N.SpanID (by simp),
    hB N.ParentSpanID (by simp), hS _ (List.mem_cons_self _ _), hS N.SpanID (by simp),
    hS N.ParentSpanID (by simp), or_false, false_or]
  unfold textMapPropagator.Inject.idCalls
  by_cases hT : sc.SpanContext.TraceID.Empty = false
  · by_cases hI : 0 < sc.SpanContext.ID
    · rcases hp : sc.SpanContext.ParentID with _ | p <;>
        simp [hT, hI, h1, h2, h5, Ne.symm h1, Ne.symm h2, Ne.symm h5]
    · simp [hT, hI]
  · simp [hT]

/-- Witness of C11: the header names of package `b3`, a context with trace id 5, span id
7 and parent 3. -/
theorem textMapPropagator.Inject_identity_headers_witness :
    (∀ v, ("x-b3-traceid", v) ∈ textMapPropagator.Inject.calls b3.names
        (ot.SpanContext.value ⟨⟨⟨0, 5⟩, 7, some 3, false, none⟩, []⟩) ↔
      ((⟨0, 5⟩ : model.TraceID).Empty = false ∧ 0 < 7 ∧
        v = (⟨0, 5⟩ : model.TraceID).String)) ∧
    (∀ v, ("x-b3-spanid", v) ∈ textMapPropagator.Inject.calls b3.names
        (ot.SpanContext.value ⟨⟨⟨0, 5⟩, 7, some 3, false, none⟩, []⟩) ↔
      ((⟨0, 5⟩ : model.TraceID).Empty = false ∧ 0 < 7 ∧ v = model.ID.String 7)) ∧
    (∀ v, ("x-b3-parentspanid", v) ∈ textMapPropagator.Inject.calls b3.names
        (ot.SpanContext.value ⟨⟨⟨0, 5⟩, 7, some 3, false, none⟩, []⟩) ↔
      ((⟨0, 5⟩ : model.TraceID).Empty = false ∧ 0 < 7 ∧
        ∃ p, some 3 = some p ∧ v = model.ID.String p)) :=
  textMapPropagator.Inject_identity_headers b3.names (by decide)
    ⟨⟨⟨0, 5⟩, 7, some 3, false, none⟩, []⟩

/-- Claim C13. Text and binary `Inject` return `ErrInvalidSpanContext` whenever the
context is not a `spanContextImpl` value, whatever the carrier is (also an unsupported
one), and `ErrInvalidCarrier` when the context is a `spanContextImpl` value and the
carrier does not implement the writer interface; in all these cases the carrier comes
back as it was given, for every writer: nothing was written. -/
theorem propagator_Inject_boundary_checks {σ τ : Type} (N : b3.Names) (F : flag.Masks)
    (W : wire.Codec) (tw : ot.TextMapWriter σ) (bw : io.Writer τ)
    (spanContext : ot.SpanContext) (sc : spanContextImpl)
    (textCarrier : Carrier σ) (binaryCarrier : Carrier τ)
    (h : ∀ sc1, spanContext ≠ ot.SpanContext.value sc1) :
    textMapPropagator.Inject N tw spanContext textCarrier =
      (some GoError.ErrInvalidSpanContext, textCarrier) ∧
    binaryPropagator.Inject F W bw spanContext binaryCarrier =
      (some GoError.ErrInvalidSpanContext, binaryCarrier) ∧
    textMapPropagator.Inject N tw (ot.SpanContext.value sc) Carrier.unsupported =
      (some GoError.ErrInvalidCarrier, Carrier.unsupported) ∧
    binaryPropagator.Inject F W bw (ot.SpanContext.value sc) Carrier.unsupported =
      (some GoError.ErrInvalidCarrier, Carrier.unsupported) := by
  refine ⟨?_, ?_, rfl, rfl⟩
  · cases spanContext with
    | value sc1 => exact absurd rfl (h sc1)
    | pointer _ => rfl
    | foreign => rfl
  · cases spanContext with
    | value sc1 => exact absurd rfl (h sc1)
    | pointer _ => rfl
    | foreign => rfl

/-- Witness of C13: a pointer to a context, with a recording text carrier that already
holds one entry and a `bytes.Buffer` that already holds one byte. -/
theorem propagator_Inject_boundary_checks_witness :
    textMapPropagator.Inject b3.names recorder
        (ot.SpanContext.pointer ⟨⟨⟨0, 5⟩, 7, none, false, none⟩, []⟩)
        (Carrier.supported [("k", "v")]) =
      (some GoError.ErrInvalidSpanContext, Carrier.supported [("k", "v")]) ∧
    binaryPropagator.Inject flag.standard wire.proto bytes.Buffer.writer
        (ot.SpanContext.pointer ⟨⟨⟨0, 5⟩, 7, none, false, none⟩, []⟩)
        (Carrier.supported [1]) =
      (some GoError.ErrInvalidSpanContext, Carrier.supported [1]) ∧
    textMapPropagator.Inject b3.names recorder
        (ot.SpanContext.value ⟨⟨⟨0, 5⟩, 7, none, false, none⟩, []⟩) Carrier.unsupported =
      (some GoError.ErrInvalidCarrier, Carrier.unsupported) ∧
    binaryPropagator.Inject flag.standard wire.proto bytes.Buffer.writer
        (ot.SpanContext.value ⟨⟨⟨0, 5⟩, 7, none, false, none⟩, []⟩) Carrier.unsupported =
      (some GoError.ErrInvalidCarrier, Carrier.unsupported) :=
  propagator_Inject_boundary_checks b3.names flag.standard wire.proto recorder
    bytes.Buffer.writer (ot.SpanContext.pointer ⟨⟨⟨0, 5⟩, 7, none, false, none⟩, []⟩)
    ⟨⟨⟨0, 5⟩, 7, none, false, none⟩, []⟩ (Carrier.supported [("k", "v")])
    (Carrier.supported [1]) (fun _ h => ot.SpanContext.noConfusion h)

/-- Claim C15. For a context whose baggage is a map (no key twice), one text `Inject`
sets the header `ot-baggage-` + k to v for every baggage entry (k, v), and no header key
is set twice in the call: the keys of the Set calls are pairwise distinct. -/
theorem textMapPropagator.Inject_baggage_once (N : b3.Names) (hN : N.Distinct)
    (sc : spanContextImpl) (hkeys : (sc.baggage.map Prod.fst).Nodup) :
    (∀ kv ∈ sc.baggage, (prefixBaggage ++ kv.1, kv.2) ∈
      textMapPropagator.Inject.calls N (ot.SpanContext.value sc)) ∧
    ((textMapPropagator.Inject.calls N (ot.SpanContext.value sc)).map Prod.fst).Nodup := by
  rw [textMapPropagator.Inject.calls_eq]
  constructor
  · intro kv hkv
    simp only [List.mem_append, textMapPropagator.Inject.baggageCalls, List.mem_map]
    exact Or.inr ⟨kv, hkv, rfl⟩
  · have hk : (sc.baggage.map (fun kv => strings.ToLower (fun c => c) kv.1)).Nodup := by
      simpa [strings.ToLower_id] using hkeys
    have h := textMapPropagator.Inject.lowered_keys_nodup (fun c => c) N hN sc hk
    simpa [strings.ToLower_id, textMapPropagator.Inject.baggageCalls] using h

/-- Witness of C15: the header names of package `b3` and a context with Debug set, a
parent and two baggage entries. -/
theorem textMapPropagator.Inject_baggage_once_witness :
    (∀ kv ∈ [("a", "1"), ("B", "2")], (prefixBaggage ++ kv.1, kv.2) ∈
      textMapPropagator.Inject.calls b3.names
        (ot.SpanContext.value ⟨⟨⟨0, 5⟩, 7, some 3, true, some true⟩,
          [("a", "1"), ("B", "2")]⟩)) ∧
    ((textMapPropagator.Inject.calls b3.names
        (ot.SpanContext.value ⟨⟨⟨0, 5⟩, 7, some 3, true, some true⟩,
          [("a", "1"), ("B", "2")]⟩)).map Prod.fst).Nodup :=
  textMapPropagator.Inject_baggage_once b3.names (by decide)
    ⟨⟨⟨0, 5⟩, 7, some 3, true, some true⟩, [("a", "1"), ("B", "2")]⟩ (by decide)

/-! ## Binary codec: the write sequence -/

/-- Claim C14. The writes of one binary `Inject`, for every sink `w` (logged, starting
from an empty log). When serialization fails, its error is returned and nothing is
written. Otherwise the first write is the four big-endian bytes of `uint32(len(b))`;
when it fails, its error is returned unchanged and it stays the only write; when it
succeeds, the second and last write is the record bytes `b` and its error (nil on a sink
that accepts the write) is returned unchanged. The four bytes decode to the length
taken modulo 2^32. -/
theorem binaryPropagator.Inject_write_sequence {σ : Type} (F : flag.Masks) (W : wire.Codec)
    (w : io.Writer σ) (sc : spanContextImpl) (c : σ) :
    binaryPropagator.Inject F W w.logged (ot.SpanContext.value sc)
        (Carrier.supported (c, [])) =
      (match W.Marshal (binaryPropagator.Inject.state F sc) with
        | Except.error err => (some err, Carrier.supported (c, []))
        | Except.ok b =>
          match w.Write c (binary.BigEndian.PutUint32 (b.length % 2 ^ 32)) with
          | (some err, c1) =>
            (some err,
              Carrier.supported (c1, [binary.BigEndian.PutUint32 (b.length % 2 ^ 32)]))
          | (none, c1) =>
            ((w.Write c1 b).1,
              Carrier.supported
                ((w.Write c1 b).2, [binary.BigEndian.PutUint32 (b.length % 2 ^ 32), b]))) ∧
    ∀ b : List Nat,
      binary.BigEndian.Uint32 (binary.BigEndian.PutUint32 (b.length % 2 ^ 32)) =
        b.length % 2 ^ 32 := by
  constructor
  · simp only [binaryPropagator.Inject, binary.Write, io.Writer.logged]
    cases hm : W.Marshal (binaryPropagator.Inject.state F sc) with
    | error err => rfl
    | ok b =>
      simp only
      rcases hw : w.Write c (binary.BigEndian.PutUint32 (b.length % 2 ^ 32)) with ⟨e, c1⟩
      cases e with
      | none => simp
      | some err => simp
  · intro b
    rw [binary.BigEndian.Uint32_PutUint32, Nat.mod_mod]

/-! ## Tracer and span: the claims -/

/-- Claim C18 (the code departs from it). The parent that the loop over the references
leaves is the context of the last reference, of either type: a `ChildOfRef` reference
followed by a `FollowsFromRef` reference gives the context and the baggage of the
`FollowsFromRef` one, because the `break` of the `ChildOfRef` case leaves the `switch`
and not the `for`. The second part runs `StartSpan` on such a list and shows the
options and the baggage the underlying tracer and the span get. -/
theorem tracerImpl.StartSpan_follows_from_overrides_child_of :
    (∀ (a b : spanContextImpl),
      tracerImpl.StartSpan.references
          [⟨ot.SpanReferenceType.ChildOfRef, ot.SpanContext.value a⟩,
            ⟨ot.SpanReferenceType.FollowsFromRef, ot.SpanContext.value b⟩]
          (model.SpanContext.zero, []) = some (b.SpanContext, b.baggage)) ∧
    tracerImpl.StartSpan (fun name options => (name, options)) (fun v : String => v) "op"
        { References :=
            [⟨ot.SpanReferenceType.ChildOfRef,
                ot.SpanContext.value ⟨⟨⟨0, 1⟩, 2, none, false, none⟩, [("a", "1")]⟩⟩,
              ⟨ot.SpanReferenceType.FollowsFromRef,
                ot.SpanContext.value ⟨⟨⟨0, 3⟩, 4, none, false, none⟩, [("b", "2")]⟩⟩],
          StartTime := 0, Tags := [] } =
      some { span := ("op", [zipkin.SpanOption.Parent ⟨⟨0, 3⟩, 4, none, false, none⟩]),
             baggage := [("b", "2")] } := by
  refine ⟨fun a b => rfl, by decide⟩

/-- Claim C19. For every span `s` of the adapter, `s.Context()` is a pointer to a
`spanContextImpl`, and `tracerImpl.Inject` of it with the format `TextMap`,
`HTTPHeaders` or `Binary` returns `ErrInvalidSpanContext` and leaves the carrier as it
was, whatever the carrier and its writers are. -/
theorem tracerImpl.Inject_span_context_rejected {Span σ τ : Type} (N : b3.Names)
    (F : flag.Masks) (W : wire.Codec) (tw : ot.TextMapWriter σ) (bw : io.Writer τ)
    (Context : Span → model.SpanContext) (s : spanImpl Span)
    (textCarrier : Carrier σ) (binaryCarrier : Carrier τ) :
    spanImpl.Context Context s =
      ot.SpanContext.pointer { SpanContext := Context s.span, baggage := s.baggage } ∧
    tracerImpl.Inject N F W tw bw (spanImpl.Context Context s) ot.Format.TextMap
        textCarrier binaryCarrier =
      (some GoError.ErrInvalidSpanContext, textCarrier, binaryCarrier) ∧
    tracerImpl.Inject N F W tw bw (spanImpl.Context Context s) ot.Format.HTTPHeaders
        textCarrier binaryCarrier =
      (some GoError.ErrInvalidSpanContext, textCarrier, binaryCarrier) ∧
    tracerImpl.Inject N F W tw bw (spanImpl.Context Context s) ot.Format.Binary
        textCarrier binaryCarrier =
      (some GoError.ErrInvalidSpanContext, textCarrier, binaryCarrier) :=
  ⟨rfl, rfl, rfl, rfl⟩

/-! ## Lemmas on the handler of the text `Extract` -/

theorem textMapPropagator.Extract.handler_eq_lowered (lower : Char → Char) (N : b3.Names)
    (vars : textMapPropagator.Extract.Vars) (kv : String × String) :
    textMapPropagator.Extract.handler lower N vars kv =
      textMapPropagator.Extract.handler (fun c => c) N vars
        (strings.ToLower lower kv.1, kv.2) := by
  simp only [textMapPropagator.Extract.handler, strings.ToLower_id]

theorem foldl_last_key {γ β : Type} (step : γ → String × String → γ) (proj : γ → β)
    (inj : String → β) (P : String × String → Bool)
    (hstep : ∀ g a, proj (step g a) = if P a = true then inj a.2 else proj g)
    (l : List (String × String)) (g0 : γ) :
    proj (l.foldl step g0) = (((l.filter P).getLast?).map Prod.snd).elim (proj g0) inj := by
  induction l generalizing g0 with
  | nil => rfl
  | cons a l ih =>
    rw [List.foldl_cons, ih, hstep, List.filter_cons]
    by_cases hP : P a = true
    · simp only [hP, ↓reduceIte]
      cases hf : l.filter P with
      | nil => rfl
      | cons b t =>
        rw [List.getLast?_cons_cons, List.getLast?_eq_getLast (b :: t) (List.cons_ne_nil _ _)]
        rfl
    · simp only [hP, Bool.false_eq_true, ↓reduceIte]

theorem foldl_filter_noop {γ : Type} (step : γ → String × String → γ)
    (P : String × String → Bool) (hstep : ∀ g a, P a = false → step g a = g)
    (l : List (String × String)) (g0 : γ) :
    (l.filter P).foldl step g0 = l.foldl step g0 := by
  induction l generalizing g0 with
  | nil => rfl
  | cons a l ih =>
    rw [List.filter_cons]
    cases hP : P a with
    | true => simp only [↓reduceIte, List.foldl_cons, ih]
    | false => simp only [Bool.false_eq_true, ↓reduceIte, List.foldl_cons, ih, hstep g0 a hP]

theorem textMapPropagator.Extract.handler_unrecognized (lower : Char → Char) (N : b3.Names)
    (vars : textMapPropagator.Extract.Vars) (kv : String × String)
    (h : textMapPropagator.Extract.recognized lower N kv = false) :
    textMapPropagator.Extract.handler lower N vars kv = vars := by
  simp only [textMapPropagator.Extract.recognized, Bool.or_eq_false_iff, decide_eq_false_iff_not,
    List.mem_cons, List.mem_singleton, List.not_mem_nil, or_false, not_or] at h
  obtain ⟨⟨h1, h2, h3, h4, h5⟩, h6⟩ := h
  simp [textMapPropagator.Extract.handler, h1, h2, h3, h4, h5, h6]

theorem textMapPropagator.Extract.vars_eq (lower : Char → Char) (N : b3.Names)
    (hN : N.Distinct) (pairs : List (String × String)) :
    (pairs.foldl (textMapPropagator.Extract.handler lower N)
        textMapPropagator.Extract.init).hdrTraceID =
      (lastValue lower pairs N.TraceID).getD "" ∧
    (pairs.foldl (textMapPropagator.Extract.handler lower N)
        textMapPropagator.Extract.init).hdrSpanID =
      (lastValue lower pairs N.SpanID).getD "" ∧
    (pairs.foldl (textMapPropagator.Extract.handler lower N)
        textMapPropagator.Extract.init).hdrParentSpanID =
      (lastValue lower pairs N.ParentSpanID).getD "" ∧
    (pairs.foldl (textMapPropagator.Extract.handler lower N)
        textMapPropagator.Extract.init).hdrSampled =
      (lastValue lower pairs N.Sampled).getD "" ∧
    (pairs.foldl (textMapPropagator.Extract.handler lower N)
        textMapPropagator.Extract.init).hdrFlags =
      (lastValue lower pairs N.Flags).getD "" ∧
    ∀ k, mapGet (pairs.foldl (textMapPropagator.Extract.handler lower N)
        textMapPropagator.Extract.init).decodedBaggage k =
      lastValue lower pairs (prefixBaggage ++ k) := by
  have hh := fun g a => textMapPropagator.Extract.handler_headers N hN g
    (strings.ToLower lower (a : String × String).1, a.2)
  have key : ∀ (proj : textMapPropagator.Extract.Vars → String) (name : String),
      (∀ g a, proj (textMapPropagator.Extract.handler lower N g a) =
        if decide (strings.ToLower lower a.1 = name) = true then a.2 else proj g) →
      proj textMapPropagator.Extract.init = "" →
      proj (pairs.foldl (textMapPropagator.Extract.handler lower N)
        textMapPropagator.Extract.init) = (lastValue lower pairs name).getD "" := by
    intro proj name hstep hinit
    rw [foldl_last_key _ proj (fun s => s) (fun a => decide (strings.ToLower lower a.1 = name))
      hstep, hinit, lastValue]
    cases ((pairs.filter fun a => decide (strings.ToLower lower a.1 = name)).getLast?).map
      Prod.snd <;> rfl
  refine ⟨key (fun g => g.hdrTraceID) _ ?_ rfl, key (fun g => g.hdrSpanID) _ ?_ rfl,
    key (fun g => g.hdrParentSpanID) _ ?_ rfl, key (fun g => g.hdrSampled) _ ?_ rfl,
    key (fun g => g.hdrFlags) _ ?_ rfl, ?_⟩
  · intro g a
    rw [textMapPropagator.Extract.handler_eq_lowered]
    simpa using (hh g a).1
  · intro g a
    rw [textMapPropagator.Extract.handler_eq_lowered]
    simpa using (hh g a).2.1
  · intro g a
    rw [textMapPropagator.Extract.handler_eq_lowered]
    simpa using (hh g a).2.2.1
  · intro g a
    rw [textMapPropagator.Extract.handler_eq_lowered]
    simpa using (hh g a).2.2.2.1
  · intro g a
    rw [textMapPropagator.Extract.handler_eq_lowered]
    simpa using (hh g a).2.2.2.2
  · intro k
    have hstep : ∀ g a,
        (fun g : textMapPropagator.Extract.Vars => mapGet g.decodedBaggage k)
          (textMapPropagator.Extract.handler lower N g a) =
        if decide (strings.ToLower lower a.1 = prefixBaggage ++ k) = true
        then (fun s => some s) a.2
        else (fun g : textMapPropagator.Extract.Vars => mapGet g.decodedBaggage k) g := by
      intro g a
      rw [textMapPropagator.Extract.handler_eq_lowered]
      simpa using textMapPropagator.Extract.handler_baggage N hN g
        (strings.ToLower lower a.1, a.2) k
    have h := foldl_last_key (textMapPropagator.Extract.handler lower N)
      (fun g : textMapPropagator.Extract.Vars => mapGet g.decodedBaggage k)
      (fun s => some s)
      (fun a => decide (strings.ToLower lower a.1 = prefixBaggage ++ k))
      hstep pairs textMapPropagator.Extract.init
    simp only at h
    rw [h, lastValue]
    cases ((pairs.filter fun a =>
      decide (strings.ToLower lower a.1 = prefixBaggage ++ k)).getLast?).map Prod.snd <;> rfl

theorem lastValue_of_nodup (lower : Char → Char) (pairs : List (String × String))
    (h : (pairs.map (fun kv => strings.ToLower lower kv.1)).Nodup) (key : String) :
    lastValue lower pairs key = mapGet (lowerKeys lower pairs) key := by
  induction pairs with
  | nil => rfl
  | cons a l ih =>
    simp only [List.map_cons, List.nodup_cons] at h
    have ih1 := ih h.2
    unfold lastValue at ih1 ⊢
    rw [lowerKeys, List.map_cons, mapGet_cons, List.filter_cons]
    by_cases hk : strings.ToLower lower a.1 = key
    · have hnil : l.filter (fun kv => decide (strings.ToLower lower kv.1 = key)) = [] := by
        rw [List.filter_eq_nil_iff]
        intro b hb hbk
        apply h.1
        simp only [decide_eq_true_eq] at hbk
        rw [hk, ← hbk]
        exact List.mem_map_of_mem (fun kv => strings.ToLower lower kv.1) hb
      simp [hk, hnil]
    · simp only [hk, decide_False, Bool.false_eq_true, ↓reduceIte]
      exact ih1

theorem lastValue_eq_none (lower : Char → Char) (pairs : List (String × String))
    (key : String) (h : ∀ kv ∈ pairs, strings.ToLower lower kv.1 ≠ key) :
    lastValue lower pairs key = none := by
  have hnil : pairs.filter (fun kv => decide (strings.ToLower lower kv.1 = key)) = [] := by
    rw [List.filter_eq_nil_iff]
    intro b hb hbk
    simp only [decide_eq_true_eq] at hbk
    exact h b hb hbk
  simp [lastValue, hnil]

/-! ## Text codec: extraction -/

/-- Claim C12. For every sequence of pairs the carrier yields, the baggage that text
`Extract` returns is a map `bag` with `bag[k]` = the value of the last pair whose
lower-cased key is `ot-baggage-` + k (that is, starts with `ot-baggage-` and has the
remainder k), and no entry for any other k; the five header values handed to the
parsing routine are those of the last pair whose lower-cased key is the header name, or
empty; and pairs whose lower-cased key is neither a header name nor starts with
`ot-baggage-` have no effect: without them `Extract` returns the same. -/
theorem textMapPropagator.Extract_key_recognition {σ : Type} (lower : Char → Char)
    (N : b3.Names) (hN : N.Distinct) (r : ot.TextMapReader σ) (c : σ) :
    ∃ bag : List (String × String),
      (∀ k, mapGet bag k = lastValue lower (r.ForeachKey c) (prefixBaggage ++ k)) ∧
      (bag.map Prod.fst).Nodup ∧
      textMapPropagator.Extract lower N r (Carrier.supported c) =
        (match b3.ParseHeaders
            ((lastValue lower (r.ForeachKey c) N.TraceID).getD "")
            ((lastValue lower (r.ForeachKey c) N.SpanID).getD "")
            ((lastValue lower (r.ForeachKey c) N.ParentSpanID).getD "")
            ((lastValue lower (r.ForeachKey c) N.Sampled).getD "")
            ((lastValue lower (r.ForeachKey c) N.Flags).getD "") with
          | Except.error _ => Except.error GoError.ErrSpanContextCorrupted
          | Except.ok spanContext =>
            Except.ok { SpanContext := spanContext, baggage := bag }) ∧
      textMapPropagator.Extract lower N
          { ForeachKey := fun s =>
              (r.ForeachKey s).filter (textMapPropagator.Extract.recognized lower N) }
          (Carrier.supported c) =
        textMapPropagator.Extract lower N r (Carrier.supported c) := by
  obtain ⟨v1, v2, v3, v4, v5, vb⟩ :=
    textMapPropagator.Extract.vars_eq lower N hN (r.ForeachKey c)
  refine ⟨((r.ForeachKey c).foldl (textMapPropagator.Extract.handler lower N)
    textMapPropagator.Extract.init).decodedBaggage, vb, ?_, ?_, ?_⟩
  · exact textMapPropagator.Extract.handler_keys_nodup lower N _ _
      (by simp [textMapPropagator.Extract.init])
  · simp only [textMapPropagator.Extract, v1, v2, v3, v4, v5]
  · simp only [textMapPropagator.Extract]
    rw [foldl_filter_noop (textMapPropagator.Extract.handler lower N)
      (textMapPropagator.Extract.recognized lower N)
      (fun g a h => textMapPropagator.Extract.handler_unrecognized lower N g a h)]

/-- Witness of C12: the header names of package `b3`, ASCII lower-casing, and a map
carrier with two ids in mixed case, the baggage key `foo` twice (in two spellings) and
one other key. -/
theorem textMapPropagator.Extract_key_recognition_witness :
    ∃ bag : List (String × String),
      (∀ k, mapGet bag k = lastValue Char.toLower
        [("X-B3-TraceId", "0000000000000005"), ("X-B3-SpanId", "0000000000000007"),
          ("OT-Baggage-Foo", "1"), ("ot-baggage-foo", "2"), ("other", "x")]
        (prefixBaggage ++ k)) ∧
      (bag.map Prod.fst).Nodup ∧
      textMapPropagator.Extract Char.toLower b3.names ot.TextMapCarrier.reader
          (Carrier.supported
            [("X-B3-TraceId", "0000000000000005"), ("X-B3-SpanId", "0000000000000007"),
              ("OT-Baggage-Foo", "1"), ("ot-baggage-foo", "2"), ("other", "x")]) =
        Except.ok { SpanContext := ⟨⟨0, 5⟩, 7, none, false, none⟩, baggage := bag } ∧
      textMapPropagator.Extract Char.toLower b3.names
          { ForeachKey := fun s =>
              (ot.TextMapCarrier.reader.ForeachKey s).filter
                (textMapPropagator.Extract.recognized Char.toLower b3.names) }
          (Carrier.supported
            [("X-B3-TraceId", "0000000000000005"), ("X-B3-SpanId", "0000000000000007"),
              ("OT-Baggage-Foo", "1"), ("ot-baggage-foo", "2"), ("other", "x")]) =
        textMapPropagator.Extract Char.toLower b3.names ot.TextMapCarrier.reader
          (Carrier.supported
            [("X-B3-TraceId", "0000000000000005"), ("X-B3-SpanId", "0000000000000007"),
              ("OT-Baggage-Foo", "1"), ("ot-baggage-foo", "2"), ("other", "x")]) :=
  textMapPropagator.Extract_key_recognition Char.toLower b3.names (by decide)
    ot.TextMapCarrier.reader
    [("X-B3-TraceId", "0000000000000005"), ("X-B3-SpanId", "0000000000000007"),
      ("OT-Baggage-Foo", "1"), ("ot-baggage-foo", "2"), ("other", "x")]

/-- Claim C16, as stated, fails: a map carrier with no B3 header and the two baggage
headers `OT-Baggage-A: 1` and `ot-baggage-a: 2` is extracted to a context with the single
baggage entry (a, 2); the entry with value 1 of the carrier is not returned. -/
theorem textMapPropagator.Extract_merges_baggage_keys :
    (∀ kv ∈ [("OT-Baggage-A", "1"), ("ot-baggage-a", "2")],
      strings.ToLower Char.toLower (kv : String × String).1 ∉
        [b3.names.TraceID, b3.names.SpanID, b3.names.ParentSpanID, b3.names.Sampled,
          b3.names.Flags]) ∧
    textMapPropagator.Extract Char.toLower b3.names ot.TextMapCarrier.reader
        (Carrier.supported [("OT-Baggage-A", "1"), ("ot-baggage-a", "2")]) =
      Except.ok { SpanContext := ⟨⟨0, 0⟩, 0, none, false, none⟩, baggage := [("a", "2")] } ∧
    ∀ k, (k, "1") ∉ [("a", "2")] := by
  refine ⟨by decide, by decide, ?_⟩
  intro k h
  simp at h

/-- Claim C16 (amended). For every carrier that yields no pair whose lower-cased key is
one of the five header names, text `Extract` succeeds and returns a context with an
empty TraceID, SpanID 0, no parent and no sampling decision, whose baggage is a map `bag`
with `bag[k]` = the value of the last pair whose lower-cased key is `ot-baggage-` + k.
When no two keys of the carrier coincide after lower-casing, the baggage entries are
exactly the pairs (k, v) for which the carrier yields a pair with value v whose
lower-cased key is `ot-baggage-` + k. -/
theorem textMapPropagator.Extract_no_headers {σ : Type} (lower : Char → Char) (N : b3.Names)
    (hN : N.Distinct) (r : ot.TextMapReader σ) (c : σ)
    (hno : ∀ kv ∈ r.ForeachKey c, strings.ToLower lower kv.1 ∉
      [N.TraceID, N.SpanID, N.ParentSpanID, N.Sampled, N.Flags]) :
    ∃ ctx, textMapPropagator.Extract lower N r (Carrier.supported c) = Except.ok ctx ∧
      ctx.SpanContext.TraceID.Empty = true ∧
      ctx.SpanContext.ID = 0 ∧
      ctx.SpanContext.ParentID = none ∧
      ctx.SpanContext.Sampled = none ∧
      ctx.SpanContext.Debug = false ∧
      (∀ k, mapGet ctx.baggage k = lastValue lower (r.ForeachKey c) (prefixBaggage ++ k)) ∧
      (ctx.baggage.map Prod.fst).Nodup ∧
      (((r.ForeachKey c).map (fun kv => strings.ToLower lower kv.1)).Nodup →
        ∀ k v, (k, v) ∈ ctx.baggage ↔
          ∃ k0, (k0, v) ∈ r.ForeachKey c ∧ strings.ToLower lower k0 = prefixBaggage ++ k) := by
  obtain ⟨v1, v2, v3, v4, v5, vb⟩ :=
    textMapPropagator.Extract.vars_eq lower N hN (r.ForeachKey c)
  have hnone : ∀ n ∈ [N.TraceID, N.SpanID, N.ParentSpanID, N.Sampled, N.Flags],
      lastValue lower (r.ForeachKey c) n = none := by
    intro n hn
    apply lastValue_eq_none
    intro kv hkv heq
    exact hno kv hkv (heq ▸ hn)
  rw [hnone _ (List.mem_cons_self _ _)] at v1
  rw [hnone N.SpanID (by simp)] at v2
  rw [hnone N.ParentSpanID (by simp)] at v3
  rw [hnone N.Sampled (by simp)] at v4
  rw [hnone N.Flags (by simp)] at v5
  have hnd := textMapPropagator.Extract.handler_keys_nodup lower N (r.ForeachKey c)
    textMapPropagator.Extract.init (by simp [textMapPropagator.Extract.init])
  refine ⟨{ SpanContext := model.SpanContext.zero,
            baggage := ((r.ForeachKey c).foldl (textMapPropagator.Extract.handler lower N)
              textMapPropagator.Extract.init).decodedBaggage },
    ?_, rfl, rfl, rfl, rfl, rfl, vb, hnd, ?_⟩
  · simp only [textMapPropagator.Extract, v1, v2, v3, v4, v5, Option.getD_none]
    rfl
  · intro hkeys k v
    have hkl : ((lowerKeys lower (r.ForeachKey c)).map Prod.fst).Nodup := by
      simpa [lowerKeys, List.map_map, Function.comp_def] using hkeys
    rw [mem_iff_mapGet _ hnd, vb, lastValue_of_nodup lower _ hkeys,
      ← mem_iff_mapGet _ hkl]
    simp only [lowerKeys, List.mem_map, Prod.mk.injEq]
    constructor
    · rintro ⟨a, ha, h1, h2⟩
      exact ⟨a.1, by rw [← h2]; exact ha, h1⟩
    · rintro ⟨k0, hk0, h1⟩
      exact ⟨(k0, v), hk0, h1, rfl⟩

/-- Witness of C16: the header names of package `b3`, ASCII lower-casing, and a map
carrier with one baggage header only. -/
theorem textMapPropagator.Extract_no_headers_witness :
    textMapPropagator.Extract Char.toLower b3.names ot.TextMapCarrier.reader
        (Carrier.supported [("ot-baggage-k", "v")]) =
      Except.ok { SpanContext := ⟨⟨0, 0⟩, 0, none, false, none⟩, baggage := [("k", "v")] } ∧
    ∃ ctx, textMapPropagator.Extract Char.toLower b3.names ot.TextMapCarrier.reader
        (Carrier.supported [("ot-baggage-k", "v")]) = Except.ok ctx ∧
      ctx.SpanContext.TraceID.Empty = true ∧
      ctx.SpanContext.ID = 0 ∧
      ctx.SpanContext.ParentID = none ∧
      ctx.SpanContext.Sampled = none ∧
      ctx.SpanContext.Debug = false ∧
      (∀ k, mapGet ctx.baggage k =
        lastValue Char.toLower [("ot-baggage-k", "v")] (prefixBaggage ++ k)) ∧
      (ctx.baggage.map Prod.fst).Nodup ∧
      (([("ot-baggage-k", "v")].map
          (fun kv : String × String => strings.ToLower Char.toLower kv.1)).Nodup →
        ∀ k v, (k, v) ∈ ctx.baggage ↔
          ∃ k0, (k0, v) ∈ [("ot-baggage-k", "v")] ∧
            strings.ToLower Char.toLower k0 = prefixBaggage ++ k) :=
  ⟨by decide,
    textMapPropagator.Extract_no_headers Char.toLower b3.names (by decide)
      ot.TextMapCarrier.reader [("ot-baggage-k", "v")] (by decide)⟩

/-- Claim C17. Text `Extract` returns `ErrSpanContextCorrupted`, and no context, exactly
when the header-parsing routine rejects the five collected values; the baggage that was
collected is not returned. The second part runs `Extract` on a map carrier with
`X-B3-TraceId: zzzz` and one baggage header. -/
theorem textMapPropagator.Extract_rejected {σ : Type} (lower : Char → Char) (N : b3.Names)
    (r : ot.TextMapReader σ) (c : σ) :
    ((∃ e, b3.ParseHeaders
        (textMapPropagator.Extract.collected lower N (r.ForeachKey c)).hdrTraceID
        (textMapPropagator.Extract.collected lower N (r.ForeachKey c)).hdrSpanID
        (textMapPropagator.Extract.collected lower N (r.ForeachKey c)).hdrParentSpanID
        (textMapPropagator.Extract.collected lower N (r.ForeachKey c)).hdrSampled
        (textMapPropagator.Extract.collected lower N (r.ForeachKey c)).hdrFlags =
          Except.error e) ↔
      textMapPropagator.Extract lower N r (Carrier.supported c) =
        Except.error GoError.ErrSpanContextCorrupted) ∧
    (textMapPropagator.Extract.collected Char.toLower b3.names
      [("X-B3-TraceId", "zzzz"), ("ot-baggage-k", "v")]).hdrTraceID = "zzzz" ∧
    textMapPropagator.Extract Char.toLower b3.names ot.TextMapCarrier.reader
        (Carrier.supported [("X-B3-TraceId", "zzzz"), ("ot-baggage-k", "v")]) =
      Except.error GoError.ErrSpanContextCorrupted := by
  refine ⟨?_, by decide, by decide⟩
  simp only [textMapPropagator.Extract, textMapPropagator.Extract.collected]
  cases b3.ParseHeaders
    ((r.ForeachKey c).foldl (textMapPropagator.Extract.handler lower N)
      textMapPropagator.Extract.init).hdrTraceID
    ((r.ForeachKey c).foldl (textMapPropagator.Extract.handler lower N)
      textMapPropagator.Extract.init).hdrSpanID
    ((r.ForeachKey c).foldl (textMapPropagator.Extract.handler lower N)
      textMapPropagator.Extract.init).hdrParentSpanID
    ((r.ForeachKey c).foldl (textMapPropagator.Extract.handler lower N)
      textMapPropagator.Extract.init).hdrSampled
    ((r.ForeachKey c).foldl (textMapPropagator.Extract.handler lower N)
      textMapPropagator.Extract.init).hdrFlags with
  | error e => simp
  | ok sc => simp
